import Mathlib

/-!
Verification of the Life360-Web-UI normalization and aggregation core.

The Python source under `backend/app` is shallowly embedded:

* raw upstream values (mixed string/number encodings) are modelled by `RawVal`,
  raw location/issue/feature sub-records by association lists (`RawDict`);
* Python's `float(...)`, `int(...)`, `str(...)` conversions and truthiness are
  modelled by `pyFloat`, `pyInt`, `pyStr`, `RawVal.truthy`; Python floats are
  modelled as exact rationals (no claim below depends on binary rounding);
* pydantic model construction (`LocationData`, `LowBatteryMember`,
  `CircleStatistics`) is modelled by fallible constructors that perform the
  same field validation (clamping validators, `ge`/`le` bounds, type checks);
* the FastAPI route handlers are modelled as functions over an abstract
  upstream `Api`; exceptions are modelled with `Except` (`PyErr` distinguishes
  `HTTPException` from other exceptions, mirroring the re-raise pattern).
-/

-- Batteries marks the `Rat` arithmetic operations `@[irreducible]`, which
-- blocks `decide`-style evaluation of the embedded parsers on concrete
-- inputs; restore the default reducibility for this file.
attribute [local semireducible] Rat.add Rat.mul Rat.sub Rat.inv

/-- A raw scalar value as found in upstream JSON payloads:
Python `str`, `int`, `float` (modelled as an exact rational), `bool`, `None`. -/
inductive RawVal where
  | vstr (s : String)
  | vint (n : Int)
  | vfloat (q : Rat)
  | vbool (b : Bool)
  | vnone
deriving DecidableEq, Repr

/-- A raw sub-record (Python dict with string keys), e.g. a raw location. -/
def RawDict := List (String × RawVal)
deriving DecidableEq, Repr

/-- Python `dict.get(k, dflt)`: first binding of `k`, else the default. -/
def dictGetD (d : RawDict) (k : String) (dflt : RawVal) : RawVal :=
  (List.lookup k d).getD dflt

/-- Python truthiness of a raw scalar (`bool(v)`). -/
def RawVal.truthy : RawVal → Bool
  | .vstr s => !s.isEmpty
  | .vint n => n != 0
  | .vfloat q => q != 0
  | .vbool b => b
  | .vnone => false

/-- Digits of a decimal literal folded into a natural number. -/
def digitsToNat (l : List Char) : Nat :=
  l.foldl (fun a c => a * 10 + (c.toNat - 48)) 0

/-- Whether `l` is a nonempty run of decimal digits. -/
def isDigits (l : List Char) : Bool :=
  !l.isEmpty && l.all Char.isDigit

/-- Python `float(s)` on a string, restricted to plain decimal literals:
optional sign, integer part, optional fractional part (at least one digit
overall).  Exponent forms, inf/nan and surrounding whitespace, which never
occur in the payload fields modelled here, are treated as unparsable. -/
def parseFloatStr (s : String) : Option Rat :=
  let cs := s.data
  let signRest : Bool × List Char :=
    match cs with
    | '-' :: r => (true, r)
    | '+' :: r => (false, r)
    | r => (false, r)
  let rest := signRest.2
  let ip := rest.takeWhile (fun c => c ≠ '.')
  let core : Option Rat :=
    match rest.dropWhile (fun c => c ≠ '.') with
    | [] => if isDigits ip then some ((digitsToNat ip : Int) : Rat) else none
    | _ :: fp =>
      if ip.all Char.isDigit && fp.all Char.isDigit && (!ip.isEmpty || !fp.isEmpty) then
        some ((digitsToNat ip : Rat) + (digitsToNat fp : Rat) / ((10 : Rat) ^ fp.length))
      else none
  core.map (fun q => if signRest.1 then -q else q)

/-- Python `int(s)` on a string: optional sign followed by digits only
(so fractional encodings like "73.999999" raise `ValueError`). -/
def parseIntStr (s : String) : Option Int :=
  match s.data with
  | '-' :: r => if isDigits r then some (-(digitsToNat r : Int)) else none
  | '+' :: r => if isDigits r then some (digitsToNat r : Int) else none
  | r => if isDigits r then some (digitsToNat r : Int) else none

/-- Truncation toward zero, Python `int(f)` on a float. -/
def pyTrunc (q : Rat) : Int :=
  q.num.tdiv (q.den : Int)

/-- Python `float(v)`: `none` models `ValueError`/`TypeError`. -/
def pyFloat : RawVal → Option Rat
  | .vstr s => parseFloatStr s
  | .vint n => some (n : Rat)
  | .vfloat q => some q
  | .vbool b => some (if b then 1 else 0)
  | .vnone => none

/-- Python `int(v)`: `none` models `ValueError`/`TypeError`. -/
def pyInt : RawVal → Option Int
  | .vstr s => parseIntStr s
  | .vint n => some n
  | .vfloat q => some (pyTrunc q)
  | .vbool b => some (if b then 1 else 0)
  | .vnone => none

/-- Python `str(v)`.  For floats the exact repr differs from CPython for
non-integral values; it is never equal to a plain digit string such as "1",
which is all the embedded code ever compares it against. -/
def pyStr : RawVal → String
  | .vstr s => s
  | .vint n => toString n
  | .vfloat q => if q.den = 1 then toString q.num ++ ".0" else toString q.num ++ "/" ++ toString q.den
  | .vbool b => if b then "True" else "False"
  | .vnone => "None"

/-- Pydantic validation of an `Optional[str]` field fed a raw value:
`None` and strings pass through, anything else is a `ValidationError`. -/
def pyOptStr : RawVal → Option (Option String)
  | .vnone => some none
  | .vstr s => some (some s)
  | _ => none

/-- Drop leading and trailing whitespace from a character list. -/
def stripList (l : List Char) : List Char :=
  ((l.dropWhile Char.isWhitespace).reverse.dropWhile Char.isWhitespace).reverse

/-- Python `s.strip()` (structural implementation, so that it evaluates
inside the kernel; agrees with `String.trim` on ASCII whitespace). -/
def pyStrip (s : String) : String :=
  ⟨stripList s.data⟩

/-- Canonical location value (the `LocationData` pydantic model). -/
structure LocationData where
  latitude : Rat
  longitude : Rat
  accuracy : Int
  name : Option String
  address1 : Option String
  address2 : Option String
  battery : Option Int
  timestamp : String
  speed : Option Rat
  is_driving : Bool
deriving DecidableEq, Repr

/-- Clamp a rational into `[lo, hi]` (the pydantic clamping validators). -/
def clampQ (lo hi q : Rat) : Rat := max lo (min hi q)

/-- Clamp an integer into `[lo, hi]`. -/
def clampI (lo hi n : Int) : Int := max lo (min hi n)

/-- Construction of the `LocationData` pydantic model: the `latitude`,
`longitude` and `battery` validators clamp; the `speed` before-validator
maps negative numbers to `None`; `accuracy` carries a `ge=0` bound that
rejects; `name`/`address1`/`address2` are type-checked as `Optional[str]`.
`none` models a `ValidationError`. -/
def LocationData.build (latitude longitude : Rat) (accuracy : Int)
    (nameRaw address1Raw address2Raw : RawVal) (battery : Option Int)
    (timestamp : String) (speed : Option Rat) (is_driving : Bool) :
    Option LocationData :=
  match pyOptStr nameRaw, pyOptStr address1Raw, pyOptStr address2Raw with
  | some nm, some a1, some a2 =>
    if accuracy < 0 then none
    else
      some { latitude := clampQ (-90) 90 latitude
             longitude := clampQ (-180) 180 longitude
             accuracy := accuracy
             name := nm
             address1 := a1
             address2 := a2
             battery := battery.map (fun b => clampI 0 100 b)
             timestamp := timestamp
             speed := speed.bind (fun s => if s < 0 then none else some s)
             is_driving := is_driving }
  | _, _, _ => none

/-- The battery block of `parse_location` (life360_helpers.py lines 79-89):
`None` stays absent; otherwise `int(float(v))` clamped to `[0, 100]`,
conversion failure yielding absent without raising. -/
def parseBattery (battery_value : RawVal) : Option Int :=
  match battery_value with
  | .vnone => none
  | v =>
    match pyFloat v with
    | some q => some (clampI 0 100 (pyTrunc q))
    | none => none

/-- Embedding of `parse_location` (life360_helpers.py lines 38-117).
Falsy input (absent or empty dict) yields `none`; latitude/longitude default
to `0` when the key is missing and must convert via `float`, otherwise the
whole record is rejected; accuracy defaults to `0` on failure; speed and
battery degrade to absent; the final pydantic construction may still reject
(caught by the outer `except`, returning `None`). -/
def parse_location (location_data : Option RawDict) : Option LocationData :=
  match location_data with
  | none => none
  | some d =>
    if d.isEmpty then none
    else
      match pyFloat (dictGetD d "latitude" (RawVal.vint 0)),
            pyFloat (dictGetD d "longitude" (RawVal.vint 0)) with
      | some latitude, some longitude =>
        let accuracy : Int :=
          ((pyFloat (dictGetD d "accuracy" (RawVal.vint 0))).map pyTrunc).getD 0
        let speed : Option Rat :=
          match dictGetD d "speed" RawVal.vnone with
          | .vnone => none
          | v =>
            match pyFloat v with
            | some s => if s < 0 then none else some s
            | none => none
        let battery := parseBattery (dictGetD d "battery" RawVal.vnone)
        let timestamp := pyStr (dictGetD d "timestamp" (RawVal.vstr ""))
        let is_driving := pyStr (dictGetD d "isDriving" (RawVal.vstr "0")) == "1"
        LocationData.build latitude longitude accuracy
          (dictGetD d "name" RawVal.vnone)
          (dictGetD d "address1" RawVal.vnone)
          (dictGetD d "address2" RawVal.vnone)
          battery timestamp speed is_driving
      | _, _ => none

/-- One entry of a raw member's `communications` list (channel/value pair). -/
structure RawComm where
  channel : Option String
  value : Option String
deriving DecidableEq, Repr

/-- A raw member record from the upstream API, with the fields the embedded
code reads (see spec section 3).  `none` models an absent key (or a stored
`None`, which the code never distinguishes from absence).  `issues` and
`features` are raw sub-records; `location` is the optional raw location. -/
structure RawMember where
  id : Option String
  firstName : Option String
  lastName : Option String
  avatar : Option String
  loginPhone : Option String
  loginEmail : Option String
  communications : List RawComm
  issues : Option RawDict
  features : Option RawDict
  location : Option RawDict
deriving DecidableEq, Repr

/-- Embedding of `parse_member_status` (life360_helpers.py lines 13-35):
disconnected, then location-off, then no-location, defaulting to Active. -/
def parse_member_status (member : RawMember) : String :=
  if List.lookup "disconnected" (member.issues.getD []) = some (RawVal.vstr "1") then
    "Disconnected"
  else if List.lookup "shareLocation" (member.features.getD []) = some (RawVal.vstr "0") then
    "Location Off"
  else if member.location = none then
    "No Location"
  else
    "Active"

/-- Canonical member value (the `MemberSummary` pydantic model). -/
structure MemberSummary where
  id : String
  first_name : String
  last_name : String
  full_name : String
  status : String
  location : Option LocationData
  avatar : Option String
  phone : Option String
  email : Option String
deriving DecidableEq, Repr

/-- Python truthiness of an optional string (`not phone` tests). -/
def truthyS : Option String → Bool
  | some s => !s.isEmpty
  | none => false

/-- The `communications` scan of `create_member_summary` (lines 142-147):
walk the list in order; a Voice entry fills the phone when the phone is
still falsy, else an Email entry fills the email when it is still falsy. -/
def commScan : List RawComm → Option String → Option String →
    Option String × Option String
  | [], phone, email => (phone, email)
  | c :: rest, phone, email =>
    if c.channel = some "Voice" && !truthyS phone then
      commScan rest c.value email
    else if c.channel = some "Email" && !truthyS email then
      commScan rest phone c.value
    else
      commScan rest phone email

/-- Trimmed full name `f"{first} {last}".strip()` used in several routes. -/
def rawFullName (member : RawMember) : String :=
  pyStrip ((member.firstName.getD "") ++ " " ++ (member.lastName.getD ""))

/-- Embedding of `create_member_summary` (life360_helpers.py lines 120-160).
`member["id"]` raises `KeyError` when the id is absent (a hard failure,
modelled by `.error`); every other field falls back to a default or absent. -/
def create_member_summary (member : RawMember) : Except String MemberSummary :=
  let first_name := member.firstName.getD ""
  let last_name := member.lastName.getD ""
  let phone0 := member.loginPhone
  let email0 := member.loginEmail
  let contact :=
    if !truthyS phone0 || !truthyS email0 then
      commScan member.communications phone0 email0
    else (phone0, email0)
  match member.id with
  | none => .error "KeyError: id"
  | some i =>
    .ok { id := i
          first_name := first_name
          last_name := last_name
          full_name := pyStrip (first_name ++ " " ++ last_name)
          status := parse_member_status member
          location := parse_location member.location
          avatar := member.avatar
          phone := contact.1
          email := contact.2 }

/-- Circle metadata as consumed from `api.get_circles()` (id and name are
the only fields the embedded routes read). -/
structure CircleMeta where
  id : String
  name : String
deriving DecidableEq, Repr

/-- The upstream collaborator: both calls may fail with a transport/auth
error message.  Repeated calls are pure, modelling one fixed upstream
response held constant during an operation. -/
structure Api where
  get_circles : Except String (List CircleMeta)
  get_circle_members : String → Except String (List RawMember)

/-- A Python exception as seen by a route handler: either an already-built
`HTTPException` (re-raised as is by handlers that have an
`except HTTPException: raise` arm) or any other exception with its message. -/
inductive PyErr where
  | http (detail : String)
  | exc (msg : String)
deriving DecidableEq, Repr

/-- The route-level `except Exception as e: raise HTTPException(500, pfx + str(e))`. -/
def routeWrap (pfx : String) : Except String α → Except PyErr α
  | .ok a => .ok a
  | .error m => .error (.http (pfx ++ m))

/-- The `except HTTPException: raise / except Exception: raise HTTPException`
pair used by `get_active_members` and `get_driving_members`. -/
def reRaise (pfx : String) : PyErr → PyErr
  | .http d => .http d
  | .exc m => .http (pfx ++ m)

/-- List-comprehension `[create_member_summary(m) for m in members_data]`:
the first `KeyError` aborts. -/
def mapSummaries : List RawMember → Except String (List MemberSummary)
  | [] => .ok []
  | m :: rest =>
    match create_member_summary m with
    | .error e => .error e
    | .ok s =>
      match mapSummaries rest with
      | .error e => .error e
      | .ok restS => .ok (s :: restS)

/-- Python dict assignment `result[name] = members`: replace an existing
binding in place, otherwise append. -/
def assocSet (acc : List (String × List MemberSummary)) (k : String)
    (v : List MemberSummary) : List (String × List MemberSummary) :=
  if acc.any (fun p => p.1 == k) then
    acc.map (fun p => if p.1 == k then (k, v) else p)
  else
    acc ++ [(k, v)]

/-- The circle loop of `get_all_members` (members.py lines 50-53). -/
def allLoop (api : Api) : List CircleMeta → List (String × List MemberSummary) →
    Except String (List (String × List MemberSummary))
  | [], acc => .ok acc
  | c :: rest, acc =>
    match api.get_circle_members c.id with
    | .error e => .error e
    | .ok ms =>
      match mapSummaries ms with
      | .error e => .error e
      | .ok summaries => allLoop api rest (assocSet acc c.name summaries)

/-- Embedding of `get_all_members` (members.py lines 42-60): circle name →
normalized members, any failure wrapped in a single 500 `HTTPException`. -/
def get_all_members (api : Api) : Except PyErr (List (String × List MemberSummary)) :=
  routeWrap "Failed to fetch members: "
    (match api.get_circles with
     | .error m => .error m
     | .ok cs => allLoop api cs [])

/-- Embedding of `get_active_members` (members.py lines 78-100): reuse
`get_all_members`, keep `Active` members with a location, drop circles
left empty; `HTTPException`s are re-raised unchanged. -/
def get_active_members (api : Api) : Except PyErr (List (String × List MemberSummary)) :=
  match get_all_members api with
  | .error e => .error (reRaise "Failed to fetch active members: " e)
  | .ok allM =>
    .ok (allM.filterMap (fun p =>
      let active := p.2.filter (fun m => m.status == "Active" && m.location.isSome)
      if active.isEmpty then none else some (p.1, active)))

/-- One row of the flattened location view (`BatchMemberLocation` model). -/
structure BatchMemberLocation where
  circle_id : String
  circle_name : String
  member_id : String
  member_name : String
  location : Option LocationData
  status : String
deriving DecidableEq, Repr

/-- The member loop of `get_current_locations` (locations.py lines 53-65):
every member is normalized; the active filter keeps `Active` members with
a location when `only_active` is set. -/
def memberLocs (c : CircleMeta) (only_active : Bool) :
    List RawMember → Except String (List BatchMemberLocation)
  | [] => .ok []
  | m :: rest =>
    match create_member_summary m with
    | .error e => .error e
    | .ok s =>
      match memberLocs c only_active rest with
      | .error e => .error e
      | .ok restL =>
        if !only_active || (s.status == "Active" && s.location.isSome) then
          .ok ({ circle_id := c.id, circle_name := c.name, member_id := s.id,
                 member_name := s.full_name, location := s.location,
                 status := s.status } :: restL)
        else
          .ok restL

/-- The circle loop of `get_current_locations` (locations.py lines 50-65). -/
def locationsLoop (api : Api) (only_active : Bool) :
    List CircleMeta → Except String (List BatchMemberLocation)
  | [] => .ok []
  | c :: rest =>
    match api.get_circle_members c.id with
    | .error e => .error e
    | .ok ms =>
      match memberLocs c only_active ms with
      | .error e => .error e
      | .ok entries =>
        match locationsLoop api only_active rest with
        | .error e => .error e
        | .ok restL => .ok (entries ++ restL)

/-- Embedding of `get_current_locations` (locations.py lines 38-72). -/
def get_current_locations (only_active : Bool) (api : Api) :
    Except PyErr (List BatchMemberLocation) :=
  routeWrap "Failed to fetch locations: "
    (match api.get_circles with
     | .error m => .error m
     | .ok cs => locationsLoop api only_active cs)

/-- Python truthiness-and-flag test `loc.location and loc.location.is_driving`. -/
def isDrivingLoc (loc : BatchMemberLocation) : Bool :=
  match loc.location with
  | some l => l.is_driving
  | none => false

/-- The inner member scan of `get_driving_members` (locations.py lines
109-113): `member["id"]` raises `KeyError` when absent; the first match wins. -/
def findMemberById : List RawMember → String → Except String (Option RawMember)
  | [], _ => .ok none
  | m :: rest, mid =>
    match m.id with
    | none => .error "KeyError: id"
    | some i => if i == mid then .ok (some m) else findMemberById rest mid

/-- The driving-member loop of `get_driving_members` (locations.py lines
98-114): for each driving, unseen flattened entry, re-fetch the circles,
locate the first circle with the matching id, re-fetch its members, locate
the first member with the matching id, and append its summary. -/
def drivingLoop (api : Api) :
    List BatchMemberLocation → List String → Except String (List MemberSummary)
  | [], _ => .ok []
  | loc :: rest, seen =>
    if isDrivingLoc loc && !(seen.contains loc.member_id) then
      match api.get_circles with
      | .error m => .error m
      | .ok metas =>
        match metas.find? (fun c => c.id == loc.circle_id) with
        | none => drivingLoop api rest seen
        | some c =>
          match api.get_circle_members c.id with
          | .error m => .error m
          | .ok ms =>
            match findMemberById ms loc.member_id with
            | .error m => .error m
            | .ok none => drivingLoop api rest seen
            | .ok (some m) =>
              match create_member_summary m with
              | .error e => .error e
              | .ok s =>
                match drivingLoop api rest (loc.member_id :: seen) with
                | .error e => .error e
                | .ok restR => .ok (s :: restR)
    else
      drivingLoop api rest seen

/-- Embedding of `get_driving_members` (locations.py lines 87-123). -/
def get_driving_members (api : Api) : Except PyErr (List MemberSummary) :=
  match get_current_locations true api with
  | .error e => .error (reRaise "Failed to fetch driving members: " e)
  | .ok locs =>
    match drivingLoop api locs [] with
    | .ok res => .ok res
    | .error m => .error (.http ("Failed to fetch driving members: " ++ m))

/-- Search result row (`MemberSearchResult` model). -/
structure MemberSearchResult where
  circle : String
  circle_id : String
  member : MemberSummary
deriving DecidableEq, Repr

/-- Whether `needle` occurs as a contiguous run inside `hay`. -/
def containsSeq (needle : List Char) : List Char → Bool
  | [] => needle.isEmpty
  | h :: t => needle.isPrefixOf (h :: t) || containsSeq needle t

/-- Python `needle in hay` on strings. -/
def pySubstr (needle hay : String) : Bool :=
  containsSeq needle.data hay.data

/-- The member scan of `search_members` (members.py lines 137-146): the name
test runs on the raw fields before any summary is built. -/
def searchScan (c : CircleMeta) (term : String) :
    List RawMember → Except String (List MemberSearchResult)
  | [] => .ok []
  | m :: rest =>
    if pySubstr term (rawFullName m).toLower then
      match create_member_summary m with
      | .error e => .error e
      | .ok s =>
        match searchScan c term rest with
        | .error e => .error e
        | .ok restR => .ok ({ circle := c.name, circle_id := c.id, member := s } :: restR)
    else
      searchScan c term rest

/-- The circle loop of `search_members` (members.py lines 134-146). -/
def searchLoop (api : Api) (term : String) :
    List CircleMeta → Except String (List MemberSearchResult)
  | [] => .ok []
  | c :: rest =>
    match api.get_circle_members c.id with
    | .error e => .error e
    | .ok ms =>
      match searchScan c term ms with
      | .error e => .error e
      | .ok entries =>
        match searchLoop api term rest with
        | .error e => .error e
        | .ok restR => .ok (entries ++ restR)

/-- Embedding of `search_members` (members.py lines 118-153). -/
def search_members (api : Api) (name : String) : Except PyErr (List MemberSearchResult) :=
  routeWrap "Search failed: "
    (match api.get_circles with
     | .error m => .error m
     | .ok cs => searchLoop api (name.toLower) cs)

/-- Round half to even at integer precision (Python's `round`). -/
def roundHalfEven (q : Rat) : Int :=
  let f := q.floor
  let r := q - (f : Rat)
  if r < 1/2 then f
  else if (1/2 : Rat) < r then f + 1
  else if f % 2 = 0 then f else f + 1

/-- Python `round(q, 1)`. -/
def round1 (q : Rat) : Rat :=
  ((roundHalfEven (q * 10) : Rat)) / 10

/-- Per-circle statistics (the `CircleStatistics` pydantic model).
`last_update` is `none` when no Active member contributed a positive parsed
timestamp; the code then substitutes wall-clock "now", which a pure
embedding leaves abstract. -/
structure CircleStatistics where
  circle_id : String
  circle_name : String
  total_members : Nat
  active_members : Nat
  disconnected_members : Nat
  location_off_members : Nat
  average_battery : Option Rat
  last_update : Option Int
deriving DecidableEq, Repr

/-- Counter state of the member loop in `get_statistics` (analytics.py
lines 50-87). -/
structure StatAcc where
  active : Nat
  disconnected : Nat
  location_off : Nat
  battery_sum : Int
  battery_count : Nat
  latest : Int
deriving DecidableEq, Repr

/-- One iteration of the member loop of `get_statistics` (analytics.py
lines 60-87): battery and timestamp are read behind a truthiness gate and
converted with plain `int(...)`, conversion failures being swallowed. -/
def statStep (acc : StatAcc) (m : RawMember) : StatAcc :=
  let status := parse_member_status m
  if status = "Active" then
    let loc := m.location.getD []
    let bv := dictGetD loc "battery" RawVal.vnone
    let tv := dictGetD loc "timestamp" RawVal.vnone
    let bupd : Int × Nat :=
      if bv.truthy then
        match pyInt bv with
        | some b => (acc.battery_sum + b, acc.battery_count + 1)
        | none => (acc.battery_sum, acc.battery_count)
      else (acc.battery_sum, acc.battery_count)
    let lupd : Int :=
      if tv.truthy then
        match pyInt tv with
        | some t => max acc.latest t
        | none => acc.latest
      else acc.latest
    { acc with active := acc.active + 1, battery_sum := bupd.1,
               battery_count := bupd.2, latest := lupd }
  else if status = "Disconnected" then
    { acc with disconnected := acc.disconnected + 1 }
  else if status = "Location Off" then
    { acc with location_off := acc.location_off + 1 }
  else
    acc

/-- The average-battery computation of `get_statistics` (analytics.py lines
89-92): `round(battery_sum / battery_count, 1)` when any battery counted. -/
def circleAvg (ms : List RawMember) : Option Rat :=
  let a := ms.foldl statStep ⟨0, 0, 0, 0, 0, 0⟩
  if a.battery_count > 0 then
    some (round1 ((a.battery_sum : Rat) / (a.battery_count : Rat)))
  else none

/-- The pydantic `ge=0`/`le=100` bound on `average_battery`. -/
def avgValid : Option Rat → Bool
  | none => true
  | some q => decide ((0 : Rat) ≤ q) && decide (q ≤ 100)

/-- Per-circle statistics construction (analytics.py lines 89-108) including
the pydantic `ge=0`/`le=100` validation of `average_battery`, which rejects
(and so fails the whole request) when the unclamped average is out of range. -/
def circleStats (c : CircleMeta) (ms : List RawMember) : Except String CircleStatistics :=
  let a := ms.foldl statStep ⟨0, 0, 0, 0, 0, 0⟩
  if avgValid (circleAvg ms) then
    .ok { circle_id := c.id, circle_name := c.name, total_members := ms.length,
          active_members := a.active, disconnected_members := a.disconnected,
          location_off_members := a.location_off, average_battery := circleAvg ms,
          last_update := if a.latest > 0 then some a.latest else none }
  else
    .error "ValidationError: average_battery"

/-- The circle loop of `get_statistics` (analytics.py lines 47-108). -/
def statsLoop (api : Api) : List CircleMeta → Except String (List CircleStatistics)
  | [] => .ok []
  | c :: rest =>
    match api.get_circle_members c.id with
    | .error e => .error e
    | .ok ms =>
      match circleStats c ms with
      | .error e => .error e
      | .ok st =>
        match statsLoop api rest with
        | .error e => .error e
        | .ok restS => .ok (st :: restS)

/-- Embedding of `get_statistics` (analytics.py lines 39-115). -/
def get_statistics (api : Api) : Except PyErr (List CircleStatistics) :=
  routeWrap "Failed to calculate statistics: "
    (match api.get_circles with
     | .error m => .error m
     | .ok cs => statsLoop api cs)

/-- Low-battery row (the `LowBatteryMember` pydantic model); `build` performs
the model's validation: `location` must be a string and `battery` carries
`ge=0, le=100`, so an out-of-range battery raises instead of clamping. -/
structure LowBatteryMember where
  circle : String
  member : String
  battery : Int
  location : String
deriving DecidableEq, Repr

/-- Pydantic construction of `LowBatteryMember`. -/
def LowBatteryMember.build (circle member : String) (battery : Int)
    (locName : RawVal) : Except String LowBatteryMember :=
  match locName with
  | .vstr s =>
    if 0 ≤ battery && battery ≤ 100 then
      .ok { circle := circle, member := member, battery := battery, location := s }
    else
      .error "ValidationError: battery"
  | _ => .error "ValidationError: location"

/-- The member loop of `get_low_battery_members` (analytics.py lines
151-172): Active members with a truthy location whose truthy raw battery
parses with plain `int(...)` and is at most the threshold.  The row is
built inside `try/except (ValueError, TypeError)`, and pydantic's
`ValidationError` subclasses `ValueError`, so a row that fails the model's
validation (negative battery, non-string location name) is silently
skipped rather than failing the request. -/
def lowBatScan (c : CircleMeta) (threshold : Int) :
    List RawMember → Except String (List LowBatteryMember)
  | [] => .ok []
  | m :: rest =>
    let status := parse_member_status m
    if status == "Active" && (match m.location with
        | some d => !d.isEmpty
        | none => false) then
      let loc := m.location.getD []
      let bv := dictGetD loc "battery" RawVal.vnone
      if bv.truthy then
        match pyInt bv with
        | some b =>
          if b ≤ threshold then
            match LowBatteryMember.build c.name (rawFullName m) b
                (dictGetD loc "name" (RawVal.vstr "Unknown")) with
            | .error _ => lowBatScan c threshold rest
            | .ok entry =>
              match lowBatScan c threshold rest with
              | .error e => .error e
              | .ok restL => .ok (entry :: restL)
          else lowBatScan c threshold rest
        | none => lowBatScan c threshold rest
      else lowBatScan c threshold rest
    else lowBatScan c threshold rest

/-- The circle loop of `get_low_battery_members` (analytics.py lines 148-172). -/
def lowBatLoop (api : Api) (threshold : Int) :
    List CircleMeta → Except String (List LowBatteryMember)
  | [] => .ok []
  | c :: rest =>
    match api.get_circle_members c.id with
    | .error e => .error e
    | .ok ms =>
      match lowBatScan c threshold ms with
      | .error e => .error e
      | .ok entries =>
        match lowBatLoop api threshold rest with
        | .error e => .error e
        | .ok restL => .ok (entries ++ restL)

/-- Stable insertion of a row in battery order (new element goes before the
first strictly-not-smaller element, after earlier equal keys). -/
def insertLB (e : LowBatteryMember) : List LowBatteryMember → List LowBatteryMember
  | [] => [e]
  | x :: xs => if e.battery ≤ x.battery then e :: x :: xs else x :: insertLB e xs

/-- Stable sort by battery, Python's `list.sort(key=lambda x: x.battery)`. -/
def sortLB : List LowBatteryMember → List LowBatteryMember
  | [] => []
  | x :: xs => insertLB x (sortLB xs)

/-- Embedding of `get_low_battery_members` (analytics.py lines 133-182). -/
def get_low_battery_members (api : Api) (threshold : Int) :
    Except PyErr (List LowBatteryMember) :=
  match (match api.get_circles with
         | .error m => .error m
         | .ok cs => lowBatLoop api threshold cs : Except String _) with
  | .ok l => .ok (sortLB l)
  | .error m => .error (.http ("Failed to check battery levels: " ++ m))

/-- One circle together with its member payload, used to build concrete
fixed upstream responses for witnesses. -/
structure CircleData where
  id : String
  name : String
  members : List RawMember
deriving Repr

/-- A pure `Api` serving a fixed list of circles: members are resolved by
circle id (as the upstream service does), so repeated calls always agree. -/
def apiOf (cs : List CircleData) : Api where
  get_circles := .ok (cs.map fun c => { id := c.id, name := c.name })
  get_circle_members := fun cid =>
    .ok (((cs.find? (fun c => c.id == cid)).map (fun c => c.members)).getD [])

/-- A raw member that is both disconnected and sharing-off (witness data). -/
def mDisc : RawMember :=
  { id := some "u1", firstName := some "Ann", lastName := none, avatar := none,
    loginPhone := none, loginEmail := none, communications := [],
    issues := some [("disconnected", RawVal.vstr "1")],
    features := some [("shareLocation", RawVal.vstr "0")], location := none }

/-- A raw location that parses successfully (witness data). -/
def dGood : RawDict :=
  [("latitude", RawVal.vstr "40.7"), ("longitude", RawVal.vstr "-74.0"),
   ("battery", RawVal.vstr "85"), ("isDriving", RawVal.vstr "1")]

/-- The parse of `dGood` (witness data). -/
def locGood : LocationData :=
  { latitude := mkRat 407 10, longitude := -74, accuracy := 0, name := none,
    address1 := none, address2 := none, battery := some 85, timestamp := "",
    speed := none, is_driving := true }

/-- A raw location whose latitude is present but unparsable (witness data). -/
def dBadLat : RawDict := [("latitude", RawVal.vstr "x")]

/-- A nonempty raw location lacking the latitude key (witness data). -/
def dNoLat : RawDict := [("longitude", RawVal.vint 5)]

/-- Result of constructing `LocationData` from out-of-range inputs
(latitude 95, longitude 200, battery 150, speed -3): clamped, not rejected
(witness data). -/
def locW : LocationData :=
  { latitude := 90, longitude := 180, accuracy := 5, name := none,
    address1 := none, address2 := none, battery := some 100, timestamp := "",
    speed := none, is_driving := false }

/-- Which battery value (if any) a member contributes to the statistics
battery average: the member must classify `Active`, its raw battery must be
truthy, and plain `int(...)` conversion must succeed (spec-side restatement
of the loop in analytics.py lines 60-74). -/
def memberBattery (m : RawMember) : Option Int :=
  if parse_member_status m = "Active" then
    let bv := dictGetD (m.location.getD []) "battery" RawVal.vnone
    if bv.truthy then pyInt bv else none
  else none

/-- Spec-side average battery of one circle's members: the mean of the
contributed batteries rounded to one decimal, absent when none qualify. -/
def specAvgBattery (ms : List RawMember) : Option Rat :=
  let bs := ms.filterMap memberBattery
  if bs.isEmpty then none
  else some (round1 ((bs.sum : Rat) / (bs.length : Rat)))

/-- Spec-side restatement of one member's low-battery row (analytics.py
lines 151-170): Active, truthy location, truthy battery that int-parses to
at most the threshold, passed through the model validation. -/
def lowBatEntry (cname : String) (threshold : Int) (m : RawMember) :
    Option LowBatteryMember :=
  if parse_member_status m == "Active" && (match m.location with
      | some d => !d.isEmpty
      | none => false) then
    let loc := m.location.getD []
    let bv := dictGetD loc "battery" RawVal.vnone
    if bv.truthy then
      match pyInt bv with
      | some b =>
        if b ≤ threshold then
          (LowBatteryMember.build cname (rawFullName m) b
            (dictGetD loc "name" (RawVal.vstr "Unknown"))).toOption
        else none
      | none => none
    else none
  else none

/-- Spec-side gathered (unsorted, encounter-order) low-battery rows. -/
def lowBatGather (api : Api) (threshold : Int) : List CircleMeta → List LowBatteryMember
  | [] => []
  | c :: rest =>
    ((api.get_circle_members c.id).toOption.getD []).filterMap
      (lowBatEntry c.name threshold) ++ lowBatGather api threshold rest

/-- Whether a row list is ascending in battery. -/
def sortedLB : List LowBatteryMember → Bool
  | [] => true
  | [_] => true
  | a :: b :: rest => decide (a.battery ≤ b.battery) && sortedLB (b :: rest)

/-- First-occurrence deduplication relative to an already-seen set. -/
def dedupFirstFrom (seen : List String) : List String → List String
  | [] => []
  | x :: xs =>
    if seen.contains x then dedupFirstFrom seen xs
    else x :: dedupFirstFrom (x :: seen) xs

/-- First-occurrence deduplication of a list of ids. -/
def dedupFirst (xs : List String) : List String := dedupFirstFrom [] xs

instance : DecidableEq (Except String (List CircleStatistics)) := fun a b =>
  match a, b with
  | .ok x, .ok y => decidable_of_iff (x = y) (by simp)
  | .ok _, .error _ => isFalse (fun h => Except.noConfusion h)
  | .error _, .ok _ => isFalse (fun h => Except.noConfusion h)
  | .error e, .error f => decidable_of_iff (e = f) (by simp)

instance : DecidableEq (Except PyErr (List CircleStatistics)) := fun a b =>
  match a, b with
  | .ok x, .ok y => decidable_of_iff (x = y) (by simp)
  | .ok _, .error _ => isFalse (fun h => Except.noConfusion h)
  | .error _, .ok _ => isFalse (fun h => Except.noConfusion h)
  | .error e, .error f => decidable_of_iff (e = f) (by simp)

instance : DecidableEq (Except PyErr (List LowBatteryMember)) := fun a b =>
  match a, b with
  | .ok x, .ok y => decidable_of_iff (x = y) (by simp)
  | .ok _, .error _ => isFalse (fun h => Except.noConfusion h)
  | .error _, .ok _ => isFalse (fun h => Except.noConfusion h)
  | .error e, .error f => decidable_of_iff (e = f) (by simp)

instance : DecidableEq (Except PyErr (List BatchMemberLocation)) := fun a b =>
  match a, b with
  | .ok x, .ok y => decidable_of_iff (x = y) (by simp)
  | .ok _, .error _ => isFalse (fun h => Except.noConfusion h)
  | .error _, .ok _ => isFalse (fun h => Except.noConfusion h)
  | .error e, .error f => decidable_of_iff (e = f) (by simp)

instance : DecidableEq (Except PyErr (List MemberSummary)) := fun a b =>
  match a, b with
  | .ok x, .ok y => decidable_of_iff (x = y) (by simp)
  | .ok _, .error _ => isFalse (fun h => Except.noConfusion h)
  | .error _, .ok _ => isFalse (fun h => Except.noConfusion h)
  | .error e, .error f => decidable_of_iff (e = f) (by simp)

/-- A raw member whose battery is the fractional string from the spec
(counterexample data for the statistics battery rule). -/
def mStat : RawMember :=
  { id := some "u2", firstName := some "Bob", lastName := none, avatar := none,
    loginPhone := none, loginEmail := none, communications := [],
    issues := none, features := none,
    location := some [("battery", RawVal.vstr "60.000003814697266")] }

/-- Upstream with a single circle containing `mStat`. -/
def statCexApi : Api := apiOf [{ id := "c1", name := "Fam", members := [mStat] }]

/-- A raw member whose battery int-parses to -5 (counterexample data). -/
def mNegBat : RawMember :=
  { id := some "u3", firstName := some "Cam", lastName := none, avatar := none,
    loginPhone := none, loginEmail := none, communications := [],
    issues := none, features := none,
    location := some [("battery", RawVal.vstr "-5")] }

/-- Upstream with a single circle containing `mNegBat`. -/
def negBatApi : Api := apiOf [{ id := "c1", name := "Fam", members := [mNegBat] }]

/-- An Active raw member with an integer battery (witness data). -/
def mBat (nm : String) (b : Int) : RawMember :=
  { id := some nm, firstName := some nm, lastName := none, avatar := none,
    loginPhone := none, loginEmail := none, communications := [],
    issues := none, features := none,
    location := some [("battery", RawVal.vint b)] }

/-- Upstream with Active members at batteries 15, 20, 21, 5 (witness data). -/
def api15 : Api :=
  apiOf [{ id := "c1", name := "Fam",
           members := [mBat "a" 15, mBat "b" 20, mBat "c" 21, mBat "d" 5] }]

/-- The circle list served by `api15` (witness data). -/
def csW : List CircleMeta := [{ id := "c1", name := "Fam" }]

/-- Expected low-battery output of `api15` at threshold 20 (witness data). -/
def lbW : List LowBatteryMember :=
  [{ circle := "Fam", member := "d", battery := 5, location := "Unknown" },
   { circle := "Fam", member := "a", battery := 15, location := "Unknown" },
   { circle := "Fam", member := "b", battery := 20, location := "Unknown" }]

/-- A driving raw member (witness data). -/
def mDrive : RawMember :=
  { id := some "m1", firstName := some "Dana", lastName := none, avatar := none,
    loginPhone := none, loginEmail := none, communications := [],
    issues := none, features := none,
    location := some [("latitude", RawVal.vint 3), ("longitude", RawVal.vint 4),
                      ("isDriving", RawVal.vstr "1")] }

/-- Upstream with a single circle containing `mDrive` (witness data). -/
def driveApi : Api := apiOf [{ id := "c1", name := "Fam", members := [mDrive] }]

/-- Parsed location of `mDrive` (witness data). -/
def locDriveLD : LocationData :=
  { latitude := 3, longitude := 4, accuracy := 0, name := none,
    address1 := none, address2 := none, battery := none, timestamp := "",
    speed := none, is_driving := true }

/-- Flattened entry of `mDrive` (witness data). -/
def locDrive : BatchMemberLocation :=
  { circle_id := "c1", circle_name := "Fam", member_id := "m1",
    member_name := "Dana", location := some locDriveLD, status := "Active" }

/-- Normalized summary of `mDrive` (witness data). -/
def sDrive : MemberSummary :=
  { id := "m1", first_name := "Dana", last_name := "", full_name := "Dana",
    status := "Active", location := some locDriveLD, avatar := none,
    phone := none, email := none }

/-- An upstream whose circle listing fails (witness data). -/
def failCirclesApi : Api :=
  { get_circles := .error "boom", get_circle_members := fun _ => .ok [] }

/-- An upstream whose member fetches fail (witness data). -/
def failMembersApi : Api :=
  { get_circles := .ok [{ id := "c1", name := "Fam" }],
    get_circle_members := fun _ => .error "net down" }

/-- Expected statistics of `api15` (witness data): batteries 15, 20, 21, 5
average to 15.25, rounded half-to-even at one decimal to 15.2 = 76/5. -/
def statsW : List CircleStatistics :=
  [{ circle_id := "c1", circle_name := "Fam", total_members := 4,
     active_members := 4, disconnected_members := 0, location_off_members := 0,
     average_battery := some (mkRat 76 5), last_update := none }]

/-! ### Claim theorems -/

/-- C3: the status classifier is total, returning exactly one of the four
statuses, evaluated in the fixed priority order disconnected, location-off,
no-location, Active; in particular a member that is both disconnected and
sharing-off is classified `Disconnected`. -/
theorem parse_member_status_total_priority (m : RawMember) :
    (parse_member_status m = "Active" ∨ parse_member_status m = "Disconnected" ∨
      parse_member_status m = "Location Off" ∨ parse_member_status m = "No Location") ∧
    (List.lookup "disconnected" (m.issues.getD []) = some (RawVal.vstr "1") →
      parse_member_status m = "Disconnected") ∧
    (List.lookup "disconnected" (m.issues.getD []) ≠ some (RawVal.vstr "1") →
      List.lookup "shareLocation" (m.features.getD []) = some (RawVal.vstr "0") →
      parse_member_status m = "Location Off") ∧
    (List.lookup "disconnected" (m.issues.getD []) ≠ some (RawVal.vstr "1") →
      List.lookup "shareLocation" (m.features.getD []) ≠ some (RawVal.vstr "0") →
      m.location = none → parse_member_status m = "No Location") ∧
    (List.lookup "disconnected" (m.issues.getD []) ≠ some (RawVal.vstr "1") →
      List.lookup "shareLocation" (m.features.getD []) ≠ some (RawVal.vstr "0") →
      m.location ≠ none → parse_member_status m = "Active") ∧
    (List.lookup "disconnected" (m.issues.getD []) = some (RawVal.vstr "1") →
      List.lookup "shareLocation" (m.features.getD []) = some (RawVal.vstr "0") →
      parse_member_status m = "Disconnected") := by
  unfold parse_member_status
  split_ifs with h1 h2 h3 <;> simp_all

/-- C3 witness: a member that is both disconnected and sharing-off is
classified `Disconnected`. -/
theorem parse_member_status_total_priority_witness :
    parse_member_status mDisc = "Disconnected" :=
  (parse_member_status_total_priority mDisc).2.2.2.2.2 (by decide) (by decide)

/-- C8: member normalization succeeds exactly when the raw member has an id;
every other field degrades to a default or absent instead of failing. -/
theorem create_member_summary_ok_iff (m : RawMember) :
    (create_member_summary m).isOk = m.id.isSome := by
  cases h : m.id <;> simp [create_member_summary, h, Except.isOk, Except.toBool]

/-- Lookup under a binding for a different key skips the binding. -/
theorem dictGetD_cons_ne (a k : String) (v dflt : RawVal) (d : RawDict)
    (h : (k == a) = false) :
    dictGetD ((a, v) :: d) k dflt = dictGetD d k dflt := by
  simp [dictGetD, List.lookup, h]

/-- Lookup of a key at the head binding. -/
theorem dictGetD_cons_self (a : String) (v dflt : RawVal) (d : RawDict) :
    dictGetD ((a, v) :: d) a dflt = v := by
  simp [dictGetD, List.lookup]

/-- Inversion principle for `LocationData.build`. -/
theorem build_eq_some {lat lon : Rat} {acc : Int} {nm a1 a2 : RawVal}
    {bat : Option Int} {ts : String} {sp : Option Rat} {dr : Bool}
    {loc : LocationData} :
    LocationData.build lat lon acc nm a1 a2 bat ts sp dr = some loc ↔
      ∃ n na1 na2, pyOptStr nm = some n ∧ pyOptStr a1 = some na1 ∧
        pyOptStr a2 = some na2 ∧ ¬ acc < 0 ∧
        loc = { latitude := clampQ (-90) 90 lat, longitude := clampQ (-180) 180 lon,
                accuracy := acc, name := n, address1 := na1, address2 := na2,
                battery := bat.map (fun b => clampI 0 100 b), timestamp := ts,
                speed := sp.bind (fun s => if s < 0 then none else some s),
                is_driving := dr } := by
  cases h1 : pyOptStr nm <;> cases h2 : pyOptStr a1 <;> cases h3 : pyOptStr a2 <;>
    simp [LocationData.build, h1, h2, h3]
  exact fun _ => eq_comm

/-- Reduction of `parse_location` on a nonempty record with parsable
coordinates. -/
theorem parse_location_some_eq (d : RawDict) (hne : d.isEmpty = false)
    {lat lon : Rat}
    (hlat : pyFloat (dictGetD d "latitude" (RawVal.vint 0)) = some lat)
    (hlon : pyFloat (dictGetD d "longitude" (RawVal.vint 0)) = some lon) :
    parse_location (some d) =
      LocationData.build lat lon
        (((pyFloat (dictGetD d "accuracy" (RawVal.vint 0))).map pyTrunc).getD 0)
        (dictGetD d "name" RawVal.vnone) (dictGetD d "address1" RawVal.vnone)
        (dictGetD d "address2" RawVal.vnone)
        (parseBattery (dictGetD d "battery" RawVal.vnone))
        (pyStr (dictGetD d "timestamp" (RawVal.vstr "")))
        (match dictGetD d "speed" RawVal.vnone with
         | RawVal.vnone => none
         | v =>
           match pyFloat v with
           | some s => if s < 0 then none else some s
           | none => none)
        (pyStr (dictGetD d "isDriving" (RawVal.vstr "0")) == "1") := by
  simp [parse_location, hne, hlat, hlon]

/-- An unparsable latitude rejects the record. -/
theorem parse_location_none_of_lat {d : RawDict}
    (hlat : pyFloat (dictGetD d "latitude" (RawVal.vint 0)) = none) :
    parse_location (some d) = none := by
  by_cases hd : d.isEmpty <;> simp [parse_location, hd, hlat]

/-- An unparsable longitude rejects the record. -/
theorem parse_location_none_of_lon {d : RawDict}
    (hlon : pyFloat (dictGetD d "longitude" (RawVal.vint 0)) = none) :
    parse_location (some d) = none := by
  by_cases hd : d.isEmpty <;>
    cases hl : pyFloat (dictGetD d "latitude" (RawVal.vint 0)) <;>
    simp [parse_location, hd, hl, hlon]

/-- Range facts for `clampQ`. -/
theorem clampQ_mem (lo hi q : Rat) (h : lo ≤ hi) :
    lo ≤ clampQ lo hi q ∧ clampQ lo hi q ≤ hi :=
  ⟨le_max_left _ _, max_le h (min_le_left _ _)⟩

/-- Range facts for `clampI`. -/
theorem clampI_mem (lo hi n : Int) (h : lo ≤ hi) :
    lo ≤ clampI lo hi n ∧ clampI lo hi n ≤ hi :=
  ⟨le_max_left _ _, max_le h (min_le_left _ _)⟩

/-- Range and clamping facts for a successfully built `LocationData`. -/
theorem build_ranges (lat lon : Rat) (acc : Int) (nm a1 a2 : RawVal)
    (bat : Option Int) (ts : String) (sp : Option Rat) (dr : Bool)
    (loc : LocationData)
    (h : LocationData.build lat lon acc nm a1 a2 bat ts sp dr = some loc) :
    ((-90 : Rat) ≤ loc.latitude ∧ loc.latitude ≤ 90) ∧
    ((-180 : Rat) ≤ loc.longitude ∧ loc.longitude ≤ 180) ∧
    (0 : Int) ≤ loc.accuracy ∧
    (∀ b, loc.battery = some b → 0 ≤ b ∧ b ≤ 100) ∧
    loc.latitude = clampQ (-90) 90 lat ∧
    loc.longitude = clampQ (-180) 180 lon ∧
    (∀ s, sp = some s → s < 0 → loc.speed = none) := by
  obtain ⟨n, na1, na2, h1, h2, h3, h4, rfl⟩ := build_eq_some.mp h
  refine ⟨clampQ_mem _ _ _ (by norm_num), clampQ_mem _ _ _ (by norm_num),
    by simpa using h4, ?_, rfl, rfl, ?_⟩
  · intro b hb
    cases bat with
    | none => simp at hb
    | some b0 =>
      simp at hb
      subst hb
      exact clampI_mem 0 100 b0 (by norm_num)
  · intro s hs hneg
    subst hs
    simp [hneg]

/-- Full inversion of a successful `parse_location`. -/
theorem parse_location_some_inv (d : RawDict) (loc : LocationData)
    (h : parse_location (some d) = some loc) :
    d.isEmpty = false ∧
    ∃ lat lon, pyFloat (dictGetD d "latitude" (RawVal.vint 0)) = some lat ∧
      pyFloat (dictGetD d "longitude" (RawVal.vint 0)) = some lon ∧
      ∃ n na1 na2, pyOptStr (dictGetD d "name" RawVal.vnone) = some n ∧
        pyOptStr (dictGetD d "address1" RawVal.vnone) = some na1 ∧
        pyOptStr (dictGetD d "address2" RawVal.vnone) = some na2 ∧
        ¬ ((pyFloat (dictGetD d "accuracy" (RawVal.vint 0))).map pyTrunc).getD 0 < 0 ∧
        loc = { latitude := clampQ (-90) 90 lat,
                longitude := clampQ (-180) 180 lon,
                accuracy := ((pyFloat (dictGetD d "accuracy" (RawVal.vint 0))).map pyTrunc).getD 0,
                name := n, address1 := na1, address2 := na2,
                battery := (parseBattery (dictGetD d "battery" RawVal.vnone)).map
                  (fun b => clampI 0 100 b),
                timestamp := pyStr (dictGetD d "timestamp" (RawVal.vstr "")),
                speed := (match dictGetD d "speed" RawVal.vnone with
                  | RawVal.vnone => none
                  | v =>
                    match pyFloat v with
                    | some s => if s < 0 then none else some s
                    | none => none).bind (fun s => if s < 0 then none else some s),
                is_driving := pyStr (dictGetD d "isDriving" (RawVal.vstr "0")) == "1" } := by
  by_cases hd : d.isEmpty = true
  · simp [parse_location, hd] at h
  · have hd' : d.isEmpty = false := by simpa using hd
    cases hlat : pyFloat (dictGetD d "latitude" (RawVal.vint 0)) with
    | none => rw [parse_location_none_of_lat hlat] at h; simp at h
    | some lat =>
      cases hlon : pyFloat (dictGetD d "longitude" (RawVal.vint 0)) with
      | none => rw [parse_location_none_of_lon hlon] at h; simp at h
      | some lon =>
        rw [parse_location_some_eq d hd' hlat hlon] at h
        obtain ⟨n, na1, na2, h1, h2, h3, h4, rfl⟩ := build_eq_some.mp h
        exact ⟨hd', lat, lon, rfl, rfl, n, na1, na2, h1, h2, h3, h4, rfl⟩

/-- Overriding the battery with an unparsable string degrades only the
battery field; the record still parses. -/
theorem parse_location_corrupt_battery (d : RawDict) (loc : LocationData)
    (h : parse_location (some d) = some loc) :
    parse_location (some (("battery", RawVal.vstr "bogus") :: d)) =
      some { loc with battery := none } := by
  obtain ⟨hd, lat, lon, hlat, hlon, n, na1, na2, h1, h2, h3, h4, rfl⟩ :=
    parse_location_some_inv d loc h
  have hla : pyFloat (dictGetD (("battery", RawVal.vstr "bogus") :: d) "latitude"
      (RawVal.vint 0)) = some lat := by
    rw [dictGetD_cons_ne _ _ _ _ _ (by decide)]; exact hlat
  have hlo : pyFloat (dictGetD (("battery", RawVal.vstr "bogus") :: d) "longitude"
      (RawVal.vint 0)) = some lon := by
    rw [dictGetD_cons_ne _ _ _ _ _ (by decide)]; exact hlon
  rw [parse_location_some_eq (("battery", RawVal.vstr "bogus") :: d) rfl hla hlo]
  rw [dictGetD_cons_ne "battery" "accuracy" _ _ _ (by decide),
      dictGetD_cons_ne "battery" "name" _ _ _ (by decide),
      dictGetD_cons_ne "battery" "address1" _ _ _ (by decide),
      dictGetD_cons_ne "battery" "address2" _ _ _ (by decide),
      dictGetD_cons_ne "battery" "timestamp" _ _ _ (by decide),
      dictGetD_cons_ne "battery" "speed" _ _ _ (by decide),
      dictGetD_cons_ne "battery" "isDriving" _ _ _ (by decide),
      dictGetD_cons_self]
  have hpb : parseBattery (RawVal.vstr "bogus") = none := by decide
  rw [hpb, build_eq_some]
  exact ⟨n, na1, na2, h1, h2, h3, h4, by simp⟩

/-- Overriding the speed with an unparsable string degrades only the speed
field; the record still parses. -/
theorem parse_location_corrupt_speed (d : RawDict) (loc : LocationData)
    (h : parse_location (some d) = some loc) :
    parse_location (some (("speed", RawVal.vstr "bogus") :: d)) =
      some { loc with speed := none } := by
  obtain ⟨hd, lat, lon, hlat, hlon, n, na1, na2, h1, h2, h3, h4, rfl⟩ :=
    parse_location_some_inv d loc h
  have hla : pyFloat (dictGetD (("speed", RawVal.vstr "bogus") :: d) "latitude"
      (RawVal.vint 0)) = some lat := by
    rw [dictGetD_cons_ne _ _ _ _ _ (by decide)]; exact hlat
  have hlo : pyFloat (dictGetD (("speed", RawVal.vstr "bogus") :: d) "longitude"
      (RawVal.vint 0)) = some lon := by
    rw [dictGetD_cons_ne _ _ _ _ _ (by decide)]; exact hlon
  rw [parse_location_some_eq (("speed", RawVal.vstr "bogus") :: d) rfl hla hlo]
  rw [dictGetD_cons_ne "speed" "accuracy" _ _ _ (by decide),
      dictGetD_cons_ne "speed" "name" _ _ _ (by decide),
      dictGetD_cons_ne "speed" "address1" _ _ _ (by decide),
      dictGetD_cons_ne "speed" "address2" _ _ _ (by decide),
      dictGetD_cons_ne "speed" "timestamp" _ _ _ (by decide),
      dictGetD_cons_ne "speed" "battery" _ _ _ (by decide),
      dictGetD_cons_ne "speed" "isDriving" _ _ _ (by decide),
      dictGetD_cons_self]
  have hps : parseFloatStr "bogus" = none := by decide
  rw [build_eq_some]
  exact ⟨n, na1, na2, h1, h2, h3, h4, by simp [pyFloat, hps]⟩

/-- Overriding the accuracy with an unparsable string degrades only the
accuracy field (to its default 0); the record still parses. -/
theorem parse_location_corrupt_accuracy (d : RawDict) (loc : LocationData)
    (h : parse_location (some d) = some loc) :
    parse_location (some (("accuracy", RawVal.vstr "bogus") :: d)) =
      some { loc with accuracy := 0 } := by
  obtain ⟨hd, lat, lon, hlat, hlon, n, na1, na2, h1, h2, h3, h4, rfl⟩ :=
    parse_location_some_inv d loc h
  have hla : pyFloat (dictGetD (("accuracy", RawVal.vstr "bogus") :: d) "latitude"
      (RawVal.vint 0)) = some lat := by
    rw [dictGetD_cons_ne _ _ _ _ _ (by decide)]; exact hlat
  have hlo : pyFloat (dictGetD (("accuracy", RawVal.vstr "bogus") :: d) "longitude"
      (RawVal.vint 0)) = some lon := by
    rw [dictGetD_cons_ne _ _ _ _ _ (by decide)]; exact hlon
  rw [parse_location_some_eq (("accuracy", RawVal.vstr "bogus") :: d) rfl hla hlo]
  rw [dictGetD_cons_ne "accuracy" "name" _ _ _ (by decide),
      dictGetD_cons_ne "accuracy" "address1" _ _ _ (by decide),
      dictGetD_cons_ne "accuracy" "address2" _ _ _ (by decide),
      dictGetD_cons_ne "accuracy" "timestamp" _ _ _ (by decide),
      dictGetD_cons_ne "accuracy" "battery" _ _ _ (by decide),
      dictGetD_cons_ne "accuracy" "speed" _ _ _ (by decide),
      dictGetD_cons_ne "accuracy" "isDriving" _ _ _ (by decide),
      dictGetD_cons_self]
  have hps : parseFloatStr "bogus" = none := by decide
  rw [build_eq_some]
  exact ⟨n, na1, na2, h1, h2, h3, by simp [pyFloat, hps], by simp [pyFloat, hps]⟩

/-- Overriding the latitude with an unparsable string rejects the record. -/
theorem parse_location_corrupt_lat (d : RawDict) :
    parse_location (some (("latitude", RawVal.vstr "bogus") :: d)) = none :=
  parse_location_none_of_lat (by rw [dictGetD_cons_self]; decide)

/-- Overriding the longitude with an unparsable string rejects the record. -/
theorem parse_location_corrupt_lon (d : RawDict) :
    parse_location (some (("longitude", RawVal.vstr "bogus") :: d)) = none :=
  parse_location_none_of_lon (by rw [dictGetD_cons_self]; decide)

/-- C10: every constructed `LocationData` satisfies latitude in [-90,90],
longitude in [-180,180], accuracy >= 0, and battery in [0,100] when present;
out-of-range latitude/longitude are clamped at construction rather than
rejected and a negative speed is normalized to absent; the bounds hold for
every location the parser (and hence every operation) emits. -/
theorem location_data_build_invariant :
    (∀ (lat lon : Rat) (acc : Int) (nm a1 a2 : RawVal) (bat : Option Int)
        (ts : String) (sp : Option Rat) (dr : Bool) (loc : LocationData),
      LocationData.build lat lon acc nm a1 a2 bat ts sp dr = some loc →
      ((-90 : Rat) ≤ loc.latitude ∧ loc.latitude ≤ 90) ∧
      ((-180 : Rat) ≤ loc.longitude ∧ loc.longitude ≤ 180) ∧
      (0 : Int) ≤ loc.accuracy ∧
      (∀ b, loc.battery = some b → 0 ≤ b ∧ b ≤ 100) ∧
      loc.latitude = clampQ (-90) 90 lat ∧
      loc.longitude = clampQ (-180) 180 lon ∧
      (∀ s, sp = some s → s < 0 → loc.speed = none)) ∧
    (∀ (d : RawDict) (loc : LocationData), parse_location (some d) = some loc →
      ((-90 : Rat) ≤ loc.latitude ∧ loc.latitude ≤ 90) ∧
      ((-180 : Rat) ≤ loc.longitude ∧ loc.longitude ≤ 180) ∧
      (0 : Int) ≤ loc.accuracy ∧
      (∀ b, loc.battery = some b → 0 ≤ b ∧ b ≤ 100)) := by
  constructor
  · exact fun lat lon acc nm a1 a2 bat ts sp dr loc h =>
      build_ranges lat lon acc nm a1 a2 bat ts sp dr loc h
  · intro d loc h
    obtain ⟨hd, lat, lon, hlat, hlon, rest⟩ := parse_location_some_inv d loc h
    rw [parse_location_some_eq d hd hlat hlon] at h
    have hr := build_ranges _ _ _ _ _ _ _ _ _ _ _ h
    exact ⟨hr.1, hr.2.1, hr.2.2.1, hr.2.2.2.1⟩

/-- C10 witness: constructing from latitude 95, longitude 200, battery 150
and speed -3 clamps/normalizes instead of rejecting. -/
theorem location_data_build_invariant_witness :
    ((-90 : Rat) ≤ locW.latitude ∧ locW.latitude ≤ 90) ∧
    ((-180 : Rat) ≤ locW.longitude ∧ locW.longitude ≤ 180) ∧
    (0 : Int) ≤ locW.accuracy ∧
    (∀ b, locW.battery = some b → 0 ≤ b ∧ b ≤ 100) ∧
    locW.latitude = clampQ (-90) 90 95 ∧
    locW.longitude = clampQ (-180) 180 200 ∧
    (∀ s, (some (-3 : Rat)) = some s → s < 0 → locW.speed = none) :=
  location_data_build_invariant.1 95 200 5 RawVal.vnone RawVal.vnone RawVal.vnone
    (some 150) "" (some (-3)) false locW (by decide)

/-- C1: absent or empty raw locations parse to absent; an unparsable
latitude or longitude rejects the whole record (never a partial location);
and coordinates are the only fields whose parse failure rejects — making the
accuracy, battery or speed value unparsable never turns a successful parse
into a rejection, while making a coordinate unparsable always rejects. -/
theorem parse_location_coordinates_load_bearing :
    parse_location none = none ∧
    parse_location (some ([] : RawDict)) = none ∧
    (∀ d : RawDict, pyFloat (dictGetD d "latitude" (RawVal.vint 0)) = none →
      parse_location (some d) = none) ∧
    (∀ d : RawDict, pyFloat (dictGetD d "longitude" (RawVal.vint 0)) = none →
      parse_location (some d) = none) ∧
    (∀ (d : RawDict) (loc : LocationData), parse_location (some d) = some loc →
      (∃ l1, parse_location (some (("accuracy", RawVal.vstr "bogus") :: d)) = some l1) ∧
      (∃ l2, parse_location (some (("battery", RawVal.vstr "bogus") :: d)) = some l2) ∧
      (∃ l3, parse_location (some (("speed", RawVal.vstr "bogus") :: d)) = some l3) ∧
      parse_location (some (("latitude", RawVal.vstr "bogus") :: d)) = none ∧
      parse_location (some (("longitude", RawVal.vstr "bogus") :: d)) = none) := by
  refine ⟨rfl, rfl, ?_, ?_, ?_⟩
  · exact fun d h => parse_location_none_of_lat h
  · exact fun d h => parse_location_none_of_lon h
  · intro d loc h
    exact ⟨⟨_, parse_location_corrupt_accuracy d loc h⟩,
           ⟨_, parse_location_corrupt_battery d loc h⟩,
           ⟨_, parse_location_corrupt_speed d loc h⟩,
           parse_location_corrupt_lat d, parse_location_corrupt_lon d⟩

/-- C1 witness: a record with unparsable latitude is rejected, and making
the battery of a good record unparsable keeps it parsing. -/
theorem parse_location_coordinates_load_bearing_witness :
    parse_location (some dBadLat) = none ∧
    (∃ l2, parse_location (some (("battery", RawVal.vstr "bogus") :: dGood)) = some l2) :=
  ⟨parse_location_coordinates_load_bearing.2.2.1 dBadLat (by decide),
   (parse_location_coordinates_load_bearing.2.2.2.2 dGood locGood (by decide)).2.1⟩

/-- Clamping into [0,100] is idempotent. -/
theorem clampI_idem (n : Int) : clampI 0 100 (clampI 0 100 n) = clampI 0 100 n := by
  unfold clampI; omega

/-- A parsed battery is already clamped, so the model validator's clamp is
the identity on it. -/
theorem parseBattery_map_clamp (v : RawVal) :
    (parseBattery v).map (fun b => clampI 0 100 b) = parseBattery v := by
  cases v with
  | vnone => rfl
  | vstr s => cases hp : pyFloat (RawVal.vstr s) <;> simp [parseBattery, hp, clampI_idem]
  | vint n => cases hp : pyFloat (RawVal.vint n) <;> simp [parseBattery, hp, clampI_idem]
  | vfloat q => cases hp : pyFloat (RawVal.vfloat q) <;> simp [parseBattery, hp, clampI_idem]
  | vbool b => cases hp : pyFloat (RawVal.vbool b) <;> simp [parseBattery, hp, clampI_idem]

/-- C7: the battery is converted float-then-int and clamped into [0,100]
("-5" to 0, "150" to 100, "73.999999" to 73); absence or conversion failure
yields an absent battery, and an unparsable battery never rejects a record
that otherwise parses. -/
theorem parse_location_battery_rule :
    parseBattery (RawVal.vstr "-5") = some 0 ∧
    parseBattery (RawVal.vstr "150") = some 100 ∧
    parseBattery (RawVal.vstr "73.999999") = some 73 ∧
    parseBattery RawVal.vnone = none ∧
    (∀ (v : RawVal) (q : Rat), pyFloat v = some q →
      parseBattery v = some (clampI 0 100 (pyTrunc q))) ∧
    (∀ (v : RawVal) (b : Int), parseBattery v = some b → 0 ≤ b ∧ b ≤ 100) ∧
    (∀ v : RawVal, pyFloat v = none → parseBattery v = none) ∧
    (∀ (d : RawDict) (loc : LocationData), parse_location (some d) = some loc →
      loc.battery = parseBattery (dictGetD d "battery" RawVal.vnone) ∧
      parse_location (some (("battery", RawVal.vstr "bogus") :: d)) =
        some { loc with battery := none }) := by
  refine ⟨by decide, by decide, by decide, rfl, ?_, ?_, ?_, ?_⟩
  · intro v q hq
    cases v <;> simp_all [parseBattery, pyFloat]
  · intro v b hb
    cases v with
    | vnone => exact absurd hb (by simp [parseBattery])
    | vstr s =>
      cases hp : pyFloat (RawVal.vstr s) with
      | none => simp [parseBattery, hp] at hb
      | some q =>
        simp [parseBattery, hp] at hb
        subst hb
        exact clampI_mem 0 100 _ (by norm_num)
    | vint n =>
      cases hp : pyFloat (RawVal.vint n) with
      | none => simp [parseBattery, hp] at hb
      | some q =>
        simp [parseBattery, hp] at hb
        subst hb
        exact clampI_mem 0 100 _ (by norm_num)
    | vfloat q0 =>
      cases hp : pyFloat (RawVal.vfloat q0) with
      | none => simp [parseBattery, hp] at hb
      | some q =>
        simp [parseBattery, hp] at hb
        subst hb
        exact clampI_mem 0 100 _ (by norm_num)
    | vbool b0 =>
      cases hp : pyFloat (RawVal.vbool b0) with
      | none => simp [parseBattery, hp] at hb
      | some q =>
        simp [parseBattery, hp] at hb
        subst hb
        exact clampI_mem 0 100 _ (by norm_num)
  · intro v hv
    cases v <;> simp_all [parseBattery]
  · intro d loc h
    refine ⟨?_, parse_location_corrupt_battery d loc h⟩
    obtain ⟨hd, lat, lon, hlat, hlon, n, na1, na2, h1, h2, h3, h4, rfl⟩ :=
      parse_location_some_inv d loc h
    simpa using parseBattery_map_clamp (dictGetD d "battery" RawVal.vnone)

/-- C7 witness: instantiations of the battery rule at concrete inputs. -/
theorem parse_location_battery_rule_witness :
    parseBattery (RawVal.vstr "42") = some (clampI 0 100 (pyTrunc 42)) ∧
    (locGood.battery = parseBattery (dictGetD dGood "battery" RawVal.vnone) ∧
     parse_location (some (("battery", RawVal.vstr "bogus") :: dGood)) =
       some { locGood with battery := none }) :=
  ⟨parse_location_battery_rule.2.2.2.2.1 (RawVal.vstr "42") 42 (by decide),
   parse_location_battery_rule.2.2.2.2.2.2.2 dGood locGood (by decide)⟩

/-- Congruence: the parser reads a raw record only through its emptiness
and the ten keyed lookups. -/
theorem parse_location_congr (d d' : RawDict)
    (he : d.isEmpty = d'.isEmpty)
    (h1 : dictGetD d "latitude" (RawVal.vint 0) = dictGetD d' "latitude" (RawVal.vint 0))
    (h2 : dictGetD d "longitude" (RawVal.vint 0) = dictGetD d' "longitude" (RawVal.vint 0))
    (h3 : dictGetD d "accuracy" (RawVal.vint 0) = dictGetD d' "accuracy" (RawVal.vint 0))
    (h4 : dictGetD d "speed" RawVal.vnone = dictGetD d' "speed" RawVal.vnone)
    (h5 : dictGetD d "battery" RawVal.vnone = dictGetD d' "battery" RawVal.vnone)
    (h6 : dictGetD d "timestamp" (RawVal.vstr "") = dictGetD d' "timestamp" (RawVal.vstr ""))
    (h7 : dictGetD d "isDriving" (RawVal.vstr "0") = dictGetD d' "isDriving" (RawVal.vstr "0"))
    (h8 : dictGetD d "name" RawVal.vnone = dictGetD d' "name" RawVal.vnone)
    (h9 : dictGetD d "address1" RawVal.vnone = dictGetD d' "address1" RawVal.vnone)
    (h10 : dictGetD d "address2" RawVal.vnone = dictGetD d' "address2" RawVal.vnone) :
    parse_location (some d) = parse_location (some d') := by
  simp only [parse_location]
  rw [he, h1, h2, h3, h4, h5, h6, h7, h8, h9, h10]

/-- C9: a nonempty raw record lacking the latitude (resp. longitude) key is
not rejected for that reason: the parser substitutes the default 0, behaving
exactly as if the key were present with value 0, and any location it returns
has that coordinate equal to 0 — in contrast, a present-but-unparsable
coordinate value rejects the record. -/
theorem parse_location_missing_coordinate_defaults :
    (∀ d : RawDict, d ≠ [] → List.lookup "latitude" d = none →
      parse_location (some d) = parse_location (some (("latitude", RawVal.vint 0) :: d)) ∧
      ∀ loc, parse_location (some d) = some loc → loc.latitude = 0) ∧
    (∀ d : RawDict, d ≠ [] → List.lookup "longitude" d = none →
      parse_location (some d) = parse_location (some (("longitude", RawVal.vint 0) :: d)) ∧
      ∀ loc, parse_location (some d) = some loc → loc.longitude = 0) ∧
    (∀ (d : RawDict) (v : RawVal), List.lookup "latitude" d = some v →
      pyFloat v = none → parse_location (some d) = none) ∧
    (∀ (d : RawDict) (v : RawVal), List.lookup "longitude" d = some v →
      pyFloat v = none → parse_location (some d) = none) := by
  refine ⟨?_, ?_, ?_, ?_⟩
  · intro d hne hlk
    have hemp : d.isEmpty = false := by
      cases d with
      | nil => exact absurd rfl hne
      | cons a t => rfl
    constructor
    · refine parse_location_congr d (("latitude", RawVal.vint 0) :: d) ?_ ?_ ?_ ?_ ?_ ?_ ?_ ?_ ?_ ?_ ?_
      · rw [hemp]; rfl
      · rw [dictGetD_cons_self]; simp [dictGetD, hlk]
      all_goals rw [dictGetD_cons_ne _ _ _ _ _ (by decide)]
    · intro loc h
      obtain ⟨hd, lat, lon, hlat, hlon, rest⟩ := parse_location_some_inv d loc h
      rw [parse_location_some_eq d hd hlat hlon] at h
      have hlat0 : lat = 0 := by
        have : dictGetD d "latitude" (RawVal.vint 0) = RawVal.vint 0 := by
          simp [dictGetD, hlk]
        rw [this] at hlat
        simpa [pyFloat] using hlat.symm
      obtain ⟨n, na1, na2, g1, g2, g3, g4, rfl⟩ := build_eq_some.mp h
      subst hlat0
      simp [clampQ]
  · intro d hne hlk
    have hemp : d.isEmpty = false := by
      cases d with
      | nil => exact absurd rfl hne
      | cons a t => rfl
    constructor
    · refine parse_location_congr d (("longitude", RawVal.vint 0) :: d) ?_ ?_ ?_ ?_ ?_ ?_ ?_ ?_ ?_ ?_ ?_
      · rw [hemp]; rfl
      · rw [dictGetD_cons_ne _ _ _ _ _ (by decide)]
      · rw [dictGetD_cons_self]; simp [dictGetD, hlk]
      all_goals rw [dictGetD_cons_ne _ _ _ _ _ (by decide)]
    · intro loc h
      obtain ⟨hd, lat, lon, hlat, hlon, rest⟩ := parse_location_some_inv d loc h
      rw [parse_location_some_eq d hd hlat hlon] at h
      have hlon0 : lon = 0 := by
        have : dictGetD d "longitude" (RawVal.vint 0) = RawVal.vint 0 := by
          simp [dictGetD, hlk]
        rw [this] at hlon
        simpa [pyFloat] using hlon.symm
      obtain ⟨n, na1, na2, g1, g2, g3, g4, rfl⟩ := build_eq_some.mp h
      subst hlon0
      simp [clampQ]
  · intro d v hlk hpv
    exact parse_location_none_of_lat (by simp [dictGetD, hlk, hpv])
  · intro d v hlk hpv
    exact parse_location_none_of_lon (by simp [dictGetD, hlk, hpv])

/-- C9 witness: a nonempty record without a latitude key parses with
latitude 0. -/
theorem parse_location_missing_coordinate_defaults_witness :
    parse_location (some dNoLat) =
      parse_location (some (("latitude", RawVal.vint 0) :: dNoLat)) :=
  ((parse_location_missing_coordinate_defaults.1 dNoLat (by decide) (by decide)).1)

/-- One statistics step moves the battery counters exactly by the member's
contributed battery. -/
theorem statStep_battery (acc : StatAcc) (m : RawMember) :
    (statStep acc m).battery_sum = acc.battery_sum + (memberBattery m).getD 0 ∧
    (statStep acc m).battery_count =
      acc.battery_count + (if (memberBattery m).isSome then 1 else 0) := by
  by_cases hs : parse_member_status m = "Active"
  · simp only [statStep, memberBattery, hs, if_pos, if_true]
    by_cases ht : (dictGetD (m.location.getD []) "battery" RawVal.vnone).truthy
    · cases hp : pyInt (dictGetD (m.location.getD []) "battery" RawVal.vnone) <;>
        simp [ht, hp]
    · simp [ht]
  · simp only [statStep, memberBattery, hs, if_neg, if_false]
    split_ifs <;> simp_all

/-- The statistics fold accumulates exactly the contributed batteries. -/
theorem foldl_statStep_battery (ms : List RawMember) (acc : StatAcc) :
    (ms.foldl statStep acc).battery_sum =
      acc.battery_sum + (ms.filterMap memberBattery).sum ∧
    (ms.foldl statStep acc).battery_count =
      acc.battery_count + (ms.filterMap memberBattery).length := by
  induction ms generalizing acc with
  | nil => simp
  | cons m rest ih =>
    have hstep := statStep_battery acc m
    have hrec := ih (statStep acc m)
    cases hm : memberBattery m with
    | none =>
      rw [hm] at hstep
      simp only [List.foldl_cons, List.filterMap_cons, hm]
      constructor
      · rw [hrec.1, hstep.1]; simp
      · rw [hrec.2, hstep.2]; simp
    | some b =>
      rw [hm] at hstep
      simp only [List.foldl_cons, List.filterMap_cons, hm]
      constructor
      · rw [hrec.1, hstep.1]; simp [List.sum_cons]; ring
      · rw [hrec.2, hstep.2]; simp [List.length_cons]; ring

/-- The imperative average equals the spec-side average. -/
theorem circleAvg_spec (ms : List RawMember) : circleAvg ms = specAvgBattery ms := by
  have hb := foldl_statStep_battery ms ⟨0, 0, 0, 0, 0, 0⟩
  simp only [circleAvg, specAvgBattery]
  rw [show (List.foldl statStep ⟨0, 0, 0, 0, 0, 0⟩ ms).battery_sum =
        (ms.filterMap memberBattery).sum by simpa using hb.1,
      show (List.foldl statStep ⟨0, 0, 0, 0, 0, 0⟩ ms).battery_count =
        (ms.filterMap memberBattery).length by simpa using hb.2]
  rcases hemp : ms.filterMap memberBattery with _ | ⟨b, bs⟩ <;> simp

/-- The statistics output carries exactly the spec-side average. -/
theorem circleStats_avg (c : CircleMeta) (ms : List RawMember)
    (st : CircleStatistics) (h : circleStats c ms = .ok st) :
    st.average_battery = specAvgBattery ms := by
  simp only [circleStats] at h
  split_ifs at h <;> cases h <;> exact circleAvg_spec ms

/-- The statistics loop maps each circle to its spec-side average. -/
theorem statsLoop_avg (api : Api) :
    ∀ (cs : List CircleMeta) (stats : List CircleStatistics),
      statsLoop api cs = .ok stats →
      stats.map (fun st => st.average_battery) =
        cs.map (fun c => specAvgBattery ((api.get_circle_members c.id).toOption.getD []))
  | [], stats, h => by cases h; simp
  | c :: rest, stats, h => by
    simp only [statsLoop] at h
    cases hm : api.get_circle_members c.id with
    | error e => simp only [hm] at h; exact Except.noConfusion h
    | ok ms =>
      simp only [hm] at h
      cases hcs : circleStats c ms with
      | error e => simp only [hcs] at h; exact Except.noConfusion h
      | ok st =>
        simp only [hcs] at h
        cases hrest : statsLoop api rest with
        | error e => simp only [hrest] at h; exact Except.noConfusion h
        | ok restS =>
          simp only [hrest] at h
          cases h
          simp only [List.map_cons, hm, Except.toOption]
          refine (List.cons_eq_cons).mpr ⟨circleStats_avg c ms st hcs, ?_⟩
          simpa using statsLoop_avg api rest restS hrest

/-- C2 counterexample: a circle whose single Active member has raw battery
"60.000003814697266" — the Location Parser battery rule parses it to 60,
but `get_statistics` reports an absent average because its own conversion is
a plain `int(...)` that rejects fractional strings. -/
theorem statistics_average_battery_spec_mismatch :
    get_statistics statCexApi =
      .ok [{ circle_id := "c1", circle_name := "Fam", total_members := 1,
             active_members := 1, disconnected_members := 0,
             location_off_members := 0, average_battery := none,
             last_update := none }] ∧
    parse_member_status mStat = "Active" ∧
    parseBattery (RawVal.vstr "60.000003814697266") = some 60 :=
  ⟨by decide, by decide, by decide⟩

/-- C2 (amended): for every circle, `statistics()` computes
`average_battery` as the mean of the battery values of exactly those Active
members whose raw battery is truthy and converts with plain Python
`int(...)` (so fractional string encodings and a raw battery of 0 are
excluded, unlike under the Location Parser rule), rounded to 1 decimal, and
absent when no Active member qualifies. -/
theorem statistics_average_battery_int_rule (api : Api) (cs : List CircleMeta)
    (stats : List CircleStatistics)
    (hc : api.get_circles = .ok cs)
    (h : get_statistics api = .ok stats) :
    stats.map (fun st => st.average_battery) =
      cs.map (fun c => specAvgBattery ((api.get_circle_members c.id).toOption.getD [])) := by
  simp only [get_statistics, hc] at h
  cases hs : statsLoop api cs with
  | error e =>
    simp only [hs, routeWrap] at h
    exact Except.noConfusion h
  | ok l =>
    simp only [hs, routeWrap] at h
    cases h
    exact statsLoop_avg api cs _ hs

/-- C2 witness: the amended rule instantiated on the four-member circle. -/
theorem statistics_average_battery_int_rule_witness :
    statsW.map (fun st => st.average_battery) =
      csW.map (fun c => specAvgBattery ((api15.get_circle_members c.id).toOption.getD [])) :=
  statistics_average_battery_int_rule api15 csW statsW rfl (by decide)

/-- Inserting into a battery-sorted list keeps it sorted. -/
theorem insertLB_sorted (e : LowBatteryMember) :
    ∀ l, sortedLB l = true → sortedLB (insertLB e l) = true := by
  intro l
  induction l with
  | nil => intro _; simp [insertLB, sortedLB]
  | cons x xs ih =>
    intro h
    have hx : sortedLB xs = true := by
      cases xs with
      | nil => rfl
      | cons y ys => simp only [sortedLB, Bool.and_eq_true] at h; exact h.2
    by_cases hle : e.battery ≤ x.battery
    · simp only [insertLB, if_pos hle, sortedLB, Bool.and_eq_true]
      exact ⟨by simpa using hle, h⟩
    · have hx_e : x.battery ≤ e.battery := le_of_not_le hle
      simp only [insertLB, if_neg hle]
      cases xs with
      | nil => simp [insertLB, sortedLB, hx_e]
      | cons y ys =>
        have hxy : x.battery ≤ y.battery := by
          simp only [sortedLB, Bool.and_eq_true, decide_eq_true_eq] at h
          exact h.1
        have hins := ih hx
        by_cases hey : e.battery ≤ y.battery
        · simp only [insertLB, if_pos hey, sortedLB, Bool.and_eq_true, decide_eq_true_eq]
          refine ⟨hx_e, hey, ?_⟩
          simp only [sortedLB, Bool.and_eq_true] at hx
          cases ys with
          | nil => rfl
          | cons z zs =>
            simp only [sortedLB, Bool.and_eq_true, decide_eq_true_eq] at hx ⊢
            exact hx
        · simp only [insertLB, if_neg hey] at hins ⊢
          simp only [sortedLB, Bool.and_eq_true, decide_eq_true_eq]
          exact ⟨hxy, hins⟩

/-- The battery sort yields a sorted list. -/
theorem sortLB_sorted (l : List LowBatteryMember) : sortedLB (sortLB l) = true := by
  induction l with
  | nil => rfl
  | cons x xs ih => exact insertLB_sorted x (sortLB xs) ih

/-- Insertion preserves every same-battery fiber in order (stability). -/
theorem filter_insertLB (e : LowBatteryMember) (l : List LowBatteryMember) (b : Int) :
    (insertLB e l).filter (fun x => x.battery == b) =
      (e :: l).filter (fun x => x.battery == b) := by
  induction l with
  | nil => simp [insertLB]
  | cons x xs ih =>
    by_cases hle : e.battery ≤ x.battery
    · simp [insertLB, hle]
    · have hx_e : ¬ x.battery = e.battery := fun hh => hle (le_of_eq hh.symm)
      simp only [insertLB, if_neg hle]
      by_cases hxb : x.battery = b
      · have heb : ¬ e.battery = b := fun hh => hx_e (by rw [hxb, hh])
        simp [List.filter_cons, hxb, heb, ih]
      · simp [List.filter_cons, hxb, ih]

/-- The sort preserves every same-battery fiber in order (stability). -/
theorem filter_sortLB (l : List LowBatteryMember) (b : Int) :
    (sortLB l).filter (fun x => x.battery == b) =
      l.filter (fun x => x.battery == b) := by
  induction l with
  | nil => rfl
  | cons x xs ih =>
    rw [sortLB, filter_insertLB]
    simp [List.filter_cons, ih]

/-- The low-battery member scan computes the spec-side row list. -/
theorem lowBatScan_gather (c : CircleMeta) (t : Int) :
    ∀ (ms : List RawMember) (es : List LowBatteryMember),
      lowBatScan c t ms = .ok es → es = ms.filterMap (lowBatEntry c.name t)
  | [], es, h => by cases h; rfl
  | m :: rest, es, h => by
    simp only [lowBatScan] at h
    simp only [List.filterMap_cons, lowBatEntry]
    by_cases h1 : (parse_member_status m == "Active" &&
        (match m.location with
         | some d => !d.isEmpty
         | none => false)) = true
    · rw [if_pos h1] at h
      rw [if_pos h1]
      by_cases h2 : (dictGetD (m.location.getD []) "battery" RawVal.vnone).truthy = true
      · rw [if_pos h2] at h
        rw [if_pos h2]
        cases h3 : pyInt (dictGetD (m.location.getD []) "battery" RawVal.vnone) with
        | none =>
          simp only [h3] at h ⊢
          exact lowBatScan_gather c t rest es h
        | some b =>
          simp only [h3] at h ⊢
          by_cases h4 : b ≤ t
          · rw [if_pos h4] at h
            rw [if_pos h4]
            cases h5 : LowBatteryMember.build c.name (rawFullName m) b
                (dictGetD (m.location.getD []) "name" (RawVal.vstr "Unknown")) with
            | error e =>
              rw [h5] at h
              simp only [h5, Except.toOption]
              exact lowBatScan_gather c t rest es h
            | ok entry =>
              rw [h5] at h
              cases hrest : lowBatScan c t rest with
              | error e => rw [hrest] at h; exact Except.noConfusion h
              | ok restL =>
                rw [hrest] at h
                cases h
                simp only [h5, Except.toOption, List.filterMap_cons]
                rw [lowBatScan_gather c t rest restL hrest]
          · rw [if_neg h4] at h
            rw [if_neg h4]
            exact lowBatScan_gather c t rest es h
      · rw [if_neg h2] at h
        rw [if_neg h2]
        exact lowBatScan_gather c t rest es h
    · rw [if_neg h1] at h
      rw [if_neg h1]
      exact lowBatScan_gather c t rest es h

/-- The low-battery circle loop computes the spec-side gathered list. -/
theorem lowBatLoop_gather (api : Api) (t : Int) :
    ∀ (cs : List CircleMeta) (l : List LowBatteryMember),
      lowBatLoop api t cs = .ok l → l = lowBatGather api t cs
  | [], l, h => by cases h; rfl
  | c :: rest, l, h => by
    simp only [lowBatLoop] at h
    cases hm : api.get_circle_members c.id with
    | error e => simp only [hm] at h; exact Except.noConfusion h
    | ok ms =>
      simp only [hm] at h
      cases hscan : lowBatScan c t ms with
      | error e => simp only [hscan] at h; exact Except.noConfusion h
      | ok es =>
        simp only [hscan] at h
        cases hrest : lowBatLoop api t rest with
        | error e => simp only [hrest] at h; exact Except.noConfusion h
        | ok restL =>
          simp only [hrest] at h
          cases h
          simp only [lowBatGather, hm, Except.toOption, Option.getD]
          rw [lowBatScan_gather c t ms es hscan, lowBatLoop_gather api t rest restL hrest]

/-- C6 counterexample: an Active member whose raw battery "-5" int-parses to
-5 (and parses to 0 under the Location Parser rule), so under either reading
it has a parsed battery at most the threshold 20 and the claim requires it
to be listed — yet the returned list is empty: the pydantic `ge=0` bound on
the row model rejects -5 with a `ValidationError`, a `ValueError` subclass
that the loop's `except (ValueError, TypeError)` catches, so the member is
silently dropped and the request succeeds without it. -/
theorem low_battery_negative_battery_skipped :
    get_low_battery_members negBatApi 20 = .ok [] ∧
    parse_member_status mNegBat = "Active" ∧
    pyInt (RawVal.vstr "-5") = some (-5) ∧
    parseBattery (RawVal.vstr "-5") = some 0 :=
  ⟨by decide, by decide, by decide, by decide⟩

/-- C6 (amended): `low_battery(t)` with t in [0,100] returns exactly the
Active members with a truthy location whose truthy raw battery int-parses to
at most t and whose row passes the model validation (battery nonnegative and
a string location name) — a qualifying member with a negative int-parsed
battery is silently skipped, its `ValidationError` being caught by the
member loop — sorted ascending by battery with ties in encounter order
(formalized as: sorted output whose same-battery fibers equal those of the
encounter-order gathered list); concretely, Active members with batteries
[15, 20, 21, 5] at t = 20 yield the battery sequence [5, 15, 20]. -/
theorem low_battery_sorted_stable :
    (∀ (api : Api) (t : Int) (cs : List CircleMeta) (l : List LowBatteryMember),
      0 ≤ t → t ≤ 100 → api.get_circles = .ok cs →
      get_low_battery_members api t = .ok l →
      sortedLB l = true ∧
      ∀ b : Int, l.filter (fun e => e.battery == b) =
        (lowBatGather api t cs).filter (fun e => e.battery == b)) ∧
    get_low_battery_members api15 20 = .ok lbW ∧
    lbW.map (fun e => e.battery) = [5, 15, 20] := by
  refine ⟨?_, by decide, by decide⟩
  intro api t cs l h0 h100 hc h
  simp only [get_low_battery_members, hc] at h
  cases hl : lowBatLoop api t cs with
  | error e => simp only [hl] at h; exact Except.noConfusion h
  | ok l0 =>
    simp only [hl] at h
    cases h
    refine ⟨sortLB_sorted l0, fun b => ?_⟩
    rw [filter_sortLB, lowBatLoop_gather api t cs l0 hl]

/-- C6 witness: the amended statement instantiated on the four-member circle. -/
theorem low_battery_sorted_stable_witness :
    sortedLB lbW = true ∧
    lbW.filter (fun e => e.battery == 15) =
      (lowBatGather api15 20 csW).filter (fun e => e.battery == 15) :=
  ⟨(low_battery_sorted_stable.1 api15 20 csW lbW (by decide) (by decide) rfl
      (by decide)).1,
   (low_battery_sorted_stable.1 api15 20 csW lbW (by decide) (by decide) rfl
      (by decide)).2 15⟩

/-- A successful summary carries the raw member's id. -/
theorem create_member_summary_id (m : RawMember) (s : MemberSummary)
    (h : create_member_summary m = .ok s) : m.id = some s.id := by
  simp only [create_member_summary] at h
  cases hm : m.id with
  | none => simp only [hm] at h; exact Except.noConfusion h
  | some i =>
    simp only [hm] at h
    cases h
    rfl

/-- A raw member with an id always summarizes, to a summary with that id. -/
theorem create_member_summary_ok_of_id (m : RawMember) (i : String)
    (h : m.id = some i) :
    ∃ s, create_member_summary m = .ok s ∧ s.id = i := by
  simp only [create_member_summary, h]
  exact ⟨_, rfl, rfl⟩

/-- Every flattened entry of one circle records that circle's id and comes
from a raw member with the entry's member id. -/
theorem memberLocs_prov (c : CircleMeta) (oa : Bool) :
    ∀ (ms : List RawMember) (entries : List BatchMemberLocation),
      memberLocs c oa ms = .ok entries →
      ∀ loc ∈ entries, loc.circle_id = c.id ∧ ∃ m ∈ ms, m.id = some loc.member_id
  | [], entries, h => by cases h; intro loc hl; cases hl
  | m :: rest, entries, h => by
    simp only [memberLocs] at h
    cases hs : create_member_summary m with
    | error e => simp only [hs] at h; exact Except.noConfusion h
    | ok s =>
      simp only [hs] at h
      cases hrest : memberLocs c oa rest with
      | error e => simp only [hrest] at h; exact Except.noConfusion h
      | ok restL =>
        simp only [hrest] at h
        by_cases hf : (!oa || (s.status == "Active" && s.location.isSome)) = true
        · rw [if_pos hf] at h
          cases h
          intro loc hl
          rcases List.mem_cons.mp hl with rfl | hl'
          · exact ⟨rfl, m, List.mem_cons_self m rest, create_member_summary_id m s hs⟩
          · obtain ⟨hcid, m', hm', hid⟩ := memberLocs_prov c oa rest _ hrest loc hl'
            exact ⟨hcid, m', List.mem_cons_of_mem m hm', hid⟩
        · rw [if_neg hf] at h
          cases h
          intro loc hl
          obtain ⟨hcid, m', hm', hid⟩ := memberLocs_prov c oa rest _ hrest loc hl
          exact ⟨hcid, m', List.mem_cons_of_mem m hm', hid⟩

/-- Every flattened entry points to a listed circle and to a member of the
response for its circle id. -/
theorem locationsLoop_prov (api : Api) (oa : Bool) :
    ∀ (cs : List CircleMeta) (locs : List BatchMemberLocation),
      locationsLoop api oa cs = .ok locs →
      ∀ loc ∈ locs, (∃ c ∈ cs, c.id = loc.circle_id) ∧
        ∃ ms, api.get_circle_members loc.circle_id = .ok ms ∧
          ∃ m ∈ ms, m.id = some loc.member_id
  | [], locs, h => by cases h; intro loc hl; cases hl
  | c :: rest, locs, h => by
    simp only [locationsLoop] at h
    cases hm : api.get_circle_members c.id with
    | error e => simp only [hm] at h; exact Except.noConfusion h
    | ok ms =>
      simp only [hm] at h
      cases hent : memberLocs c oa ms with
      | error e => simp only [hent] at h; exact Except.noConfusion h
      | ok entries =>
        simp only [hent] at h
        cases hrest : locationsLoop api oa rest with
        | error e => simp only [hrest] at h; exact Except.noConfusion h
        | ok restL =>
          simp only [hrest] at h
          cases h
          intro loc hl
          rcases List.mem_append.mp hl with hl' | hl'
          · obtain ⟨hcid, m', hm', hid⟩ := memberLocs_prov c oa ms entries hent loc hl'
            refine ⟨⟨c, List.mem_cons_self c rest, hcid.symm⟩, ms, ?_, m', hm', hid⟩
            rw [← hcid] at hm
            exact hm
          · obtain ⟨⟨c', hc', hcid⟩, ms', hms', m', hm', hid⟩ :=
              locationsLoop_prov api oa rest restL hrest loc hl'
            exact ⟨⟨c', List.mem_cons_of_mem c hc', hcid⟩, ms', hms', m', hm', hid⟩

/-- If some member of the scanned list has the wanted id, a successful scan
finds a member with that id. -/
theorem findMemberById_found :
    ∀ (ms : List RawMember) (mid : String) (r : Option RawMember),
      findMemberById ms mid = .ok r → (∃ m ∈ ms, m.id = some mid) →
      ∃ m', r = some m' ∧ m'.id = some mid
  | [], mid, r, h, hex => by
    obtain ⟨m, hm, _⟩ := hex
    cases hm
  | m :: rest, mid, r, h, hex => by
    simp only [findMemberById] at h
    cases hid : m.id with
    | none => simp only [hid] at h; exact Except.noConfusion h
    | some i =>
      simp only [hid] at h
      by_cases hi : (i == mid) = true
      · rw [if_pos hi] at h
        cases h
        exact ⟨m, rfl, by rw [hid, eq_of_beq hi]⟩
      · rw [if_neg hi] at h
        obtain ⟨m0, hm0, hm0id⟩ := hex
        rcases List.mem_cons.mp hm0 with rfl | hm0'
        · rw [hid] at hm0id
          cases hm0id
          exact absurd (by simp) hi
        · exact findMemberById_found rest mid r h ⟨m0, hm0', hm0id⟩

/-- If some listed circle has the wanted id, `find?` returns a circle with
that id. -/
theorem find?_circle :
    ∀ (metas : List CircleMeta) (cid : String),
      (∃ c ∈ metas, c.id = cid) →
      ∃ c', metas.find? (fun c => c.id == cid) = some c' ∧ c'.id = cid
  | [], cid, hex => by
    obtain ⟨c, hc, _⟩ := hex
    cases hc
  | c :: rest, cid, hex => by
    by_cases hc : (c.id == cid) = true
    · exact ⟨c, by simp [List.find?, hc], eq_of_beq hc⟩
    · have : ∃ c' ∈ rest, c'.id = cid := by
        obtain ⟨c0, hc0, hc0id⟩ := hex
        rcases List.mem_cons.mp hc0 with rfl | hc0'
        · exact absurd (by simp [hc0id]) hc
        · exact ⟨c0, hc0', hc0id⟩
      obtain ⟨c', hfind, hc'id⟩ := find?_circle rest cid this
      exact ⟨c', by simp [List.find?, hc, hfind], hc'id⟩

/-- Elements produced by the dedup pass were unseen. -/
theorem dedupFirstFrom_not_seen :
    ∀ (xs seen : List String) (x : String),
      x ∈ dedupFirstFrom seen xs → seen.contains x = false
  | [], seen, x, hx => by cases hx
  | y :: ys, seen, x, hx => by
    simp only [dedupFirstFrom] at hx
    by_cases hc : seen.contains y = true
    · rw [if_pos hc] at hx
      exact dedupFirstFrom_not_seen ys seen x hx
    · rw [if_neg hc] at hx
      rcases List.mem_cons.mp hx with rfl | hx'
      · simpa using hc
      · have hcons := dedupFirstFrom_not_seen ys (y :: seen) x hx'
        simp only [List.contains_cons, Bool.or_eq_false_iff] at hcons
        exact hcons.2

/-- The dedup pass emits no duplicates. -/
theorem dedupFirstFrom_nodup :
    ∀ (xs seen : List String), (dedupFirstFrom seen xs).Nodup
  | [], seen => List.nodup_nil
  | y :: ys, seen => by
    simp only [dedupFirstFrom]
    by_cases hc : seen.contains y = true
    · rw [if_pos hc]
      exact dedupFirstFrom_nodup ys seen
    · rw [if_neg hc]
      refine List.nodup_cons.mpr ⟨?_, dedupFirstFrom_nodup ys (y :: seen)⟩
      intro hy
      have := dedupFirstFrom_not_seen ys (y :: seen) y hy
      simp at this

/-- The driving loop emits, in order, the first-occurrence deduplication of
the driving entries' member ids. -/
theorem drivingLoop_ids (api : Api) (metas : List CircleMeta)
    (hc : api.get_circles = .ok metas) :
    ∀ (locs : List BatchMemberLocation) (seen : List String)
      (out : List MemberSummary),
      (∀ loc ∈ locs, (∃ c ∈ metas, c.id = loc.circle_id) ∧
        ∃ ms, api.get_circle_members loc.circle_id = .ok ms ∧
          ∃ m ∈ ms, m.id = some loc.member_id) →
      drivingLoop api locs seen = .ok out →
      out.map (fun s => s.id) =
        dedupFirstFrom seen ((locs.filter isDrivingLoc).map (fun l => l.member_id))
  | [], seen, out, hprov, h => by cases h; rfl
  | loc :: rest, seen, out, hprov, h => by
    have hprovloc := hprov loc (List.mem_cons_self loc rest)
    have hprovrest : ∀ l ∈ rest, (∃ c ∈ metas, c.id = l.circle_id) ∧
        ∃ ms, api.get_circle_members l.circle_id = .ok ms ∧
          ∃ m ∈ ms, m.id = some l.member_id :=
      fun l hl => hprov l (List.mem_cons_of_mem loc hl)
    simp only [drivingLoop] at h
    by_cases hdr : (isDrivingLoc loc && !(seen.contains loc.member_id)) = true
    · rw [if_pos hdr] at h
      have hsplit : isDrivingLoc loc = true ∧
          (!(seen.contains loc.member_id)) = true := by simpa using hdr
      have hdrive : isDrivingLoc loc = true := hsplit.1
      have hseen : seen.contains loc.member_id = false := by simpa using hsplit.2
      simp only [hc] at h
      obtain ⟨⟨c0, hc0mem, hc0id⟩, ms, hms, m0, hm0mem, hm0id⟩ := hprovloc
      obtain ⟨c', hfind, hc'id⟩ := find?_circle metas loc.circle_id ⟨c0, hc0mem, hc0id⟩
      simp only [hfind] at h
      rw [hc'id] at h
      simp only [hms] at h
      cases hfm : findMemberById ms loc.member_id with
      | error e => simp only [hfm] at h; exact Except.noConfusion h
      | ok r =>
        simp only [hfm] at h
        obtain ⟨m', hr, hm'id⟩ := findMemberById_found ms loc.member_id r hfm
          ⟨m0, hm0mem, hm0id⟩
        subst hr
        obtain ⟨s, hcs, hsid⟩ := create_member_summary_ok_of_id m' loc.member_id hm'id
        simp only [hcs] at h
        cases hrest : drivingLoop api rest (loc.member_id :: seen) with
        | error e => simp only [hrest] at h; exact Except.noConfusion h
        | ok restR =>
          simp only [hrest] at h
          cases h
          have hrec := drivingLoop_ids api metas hc rest (loc.member_id :: seen)
            restR hprovrest hrest
          simp only [List.filter_cons, hdrive, if_true, List.map_cons,
            dedupFirstFrom, hseen, Bool.false_eq_true, if_false]
          rw [hsid, hrec]
    · rw [if_neg hdr] at h
      have hrec := drivingLoop_ids api metas hc rest seen out hprovrest h
      cases hd : isDrivingLoc loc with
      | false => simpa [List.filter_cons, hd] using hrec
      | true =>
        have hseen : seen.contains loc.member_id = true := by
          cases hcontains : seen.contains loc.member_id with
          | false =>
            refine absurd ?_ hdr
            simp only [hd, hcontains, Bool.not_false, Bool.and_self]
          | true => rfl
        simp only [List.filter_cons, hd, if_true, List.map_cons, dedupFirstFrom,
          hseen]
        exact hrec

/-- C4: under one fixed upstream response, the driving-members list never
contains two entries with the same member id, and the entries appear exactly
in first-occurrence order: their ids are the first-occurrence deduplication
of the member ids of the driving entries of the flattened active view, in
circle-then-member encounter order. -/
theorem driving_members_dedup_first_occurrence (api : Api)
    (locs : List BatchMemberLocation) (l : List MemberSummary)
    (hlocs : get_current_locations true api = .ok locs)
    (h : get_driving_members api = .ok l) :
    l.map (fun s => s.id) =
      dedupFirst ((locs.filter isDrivingLoc).map (fun loc => loc.member_id)) ∧
    (l.map (fun s => s.id)).Nodup := by
  cases hc : api.get_circles with
  | error m =>
    simp only [get_current_locations, hc, routeWrap] at hlocs
    exact Except.noConfusion hlocs
  | ok metas =>
    have hloop : locationsLoop api true metas = .ok locs := by
      simp only [get_current_locations, hc] at hlocs
      cases hll : locationsLoop api true metas with
      | error e =>
        simp only [hll, routeWrap] at hlocs
        exact Except.noConfusion hlocs
      | ok x =>
        simp only [hll, routeWrap] at hlocs
        cases hlocs
        rfl
    have hprov := locationsLoop_prov api true metas locs hloop
    have hprov' : ∀ loc ∈ locs, (∃ c ∈ metas, c.id = loc.circle_id) ∧
        ∃ ms, api.get_circle_members loc.circle_id = .ok ms ∧
          ∃ m ∈ ms, m.id = some loc.member_id := hprov
    simp only [get_driving_members, hlocs] at h
    cases hdl : drivingLoop api locs [] with
    | error e => simp only [hdl] at h; exact Except.noConfusion h
    | ok res =>
      simp only [hdl] at h
      cases h
      have hids := drivingLoop_ids api metas hc locs [] _ hprov' hdl
      refine ⟨hids, ?_⟩
      rw [hids]
      exact dedupFirstFrom_nodup _ []

/-- C4 witness: the single driving member of `driveApi` yields one entry,
in first-occurrence order and without duplicates. -/
theorem driving_members_dedup_first_occurrence_witness :
    [sDrive].map (fun s => s.id) =
      dedupFirst (([locDrive].filter isDrivingLoc).map (fun loc => loc.member_id)) ∧
    ([sDrive].map (fun s => s.id)).Nodup :=
  driving_members_dedup_first_occurrence driveApi [locDrive] [sDrive]
    (by decide) (by decide)

/-- A failing member fetch for any listed circle aborts the all-members loop. -/
theorem allLoop_err (api : Api) :
    ∀ (cs : List CircleMeta) (acc : List (String × List MemberSummary)),
      (∃ c ∈ cs, (api.get_circle_members c.id).isOk = false) →
      ∃ e, allLoop api cs acc = .error e
  | [], acc, hex => by
    obtain ⟨c, hc, _⟩ := hex
    cases hc
  | c :: rest, acc, hex => by
    cases hm : api.get_circle_members c.id with
    | error e => exact ⟨e, by simp only [allLoop, hm]⟩
    | ok ms =>
      have hex' : ∃ c' ∈ rest, (api.get_circle_members c'.id).isOk = false := by
        obtain ⟨c0, hc0, hc0err⟩ := hex
        rcases List.mem_cons.mp hc0 with rfl | hc0'
        · rw [hm] at hc0err
          simp [Except.isOk, Except.toBool] at hc0err
        · exact ⟨c0, hc0', hc0err⟩
      cases hsum : mapSummaries ms with
      | error e => exact ⟨e, by simp only [allLoop, hm, hsum]⟩
      | ok summaries =>
        obtain ⟨e, he⟩ := allLoop_err api rest (assocSet acc c.name summaries) hex'
        exact ⟨e, by simp only [allLoop, hm, hsum]; exact he⟩

/-- A failing member fetch for any listed circle aborts the locations loop. -/
theorem locationsLoop_err (api : Api) (oa : Bool) :
    ∀ cs : List CircleMeta,
      (∃ c ∈ cs, (api.get_circle_members c.id).isOk = false) →
      ∃ e, locationsLoop api oa cs = .error e
  | [], hex => by
    obtain ⟨c, hc, _⟩ := hex
    cases hc
  | c :: rest, hex => by
    cases hm : api.get_circle_members c.id with
    | error e => exact ⟨e, by simp only [locationsLoop, hm]⟩
    | ok ms =>
      have hex' : ∃ c' ∈ rest, (api.get_circle_members c'.id).isOk = false := by
        obtain ⟨c0, hc0, hc0err⟩ := hex
        rcases List.mem_cons.mp hc0 with rfl | hc0'
        · rw [hm] at hc0err
          simp [Except.isOk, Except.toBool] at hc0err
        · exact ⟨c0, hc0', hc0err⟩
      cases hent : memberLocs c oa ms with
      | error e => exact ⟨e, by simp only [locationsLoop, hm, hent]⟩
      | ok entries =>
        obtain ⟨e, he⟩ := locationsLoop_err api oa rest hex'
        exact ⟨e, by simp only [locationsLoop, hm, hent, he]⟩

/-- A failing member fetch for any listed circle aborts the search loop. -/
theorem searchLoop_err (api : Api) (term : String) :
    ∀ cs : List CircleMeta,
      (∃ c ∈ cs, (api.get_circle_members c.id).isOk = false) →
      ∃ e, searchLoop api term cs = .error e
  | [], hex => by
    obtain ⟨c, hc, _⟩ := hex
    cases hc
  | c :: rest, hex => by
    cases hm : api.get_circle_members c.id with
    | error e => exact ⟨e, by simp only [searchLoop, hm]⟩
    | ok ms =>
      have hex' : ∃ c' ∈ rest, (api.get_circle_members c'.id).isOk = false := by
        obtain ⟨c0, hc0, hc0err⟩ := hex
        rcases List.mem_cons.mp hc0 with rfl | hc0'
        · rw [hm] at hc0err
          simp [Except.isOk, Except.toBool] at hc0err
        · exact ⟨c0, hc0', hc0err⟩
      cases hent : searchScan c term ms with
      | error e => exact ⟨e, by simp only [searchLoop, hm, hent]⟩
      | ok entries =>
        obtain ⟨e, he⟩ := searchLoop_err api term rest hex'
        exact ⟨e, by simp only [searchLoop, hm, hent, he]⟩

/-- A failing member fetch for any listed circle aborts the statistics loop. -/
theorem statsLoop_err (api : Api) :
    ∀ cs : List CircleMeta,
      (∃ c ∈ cs, (api.get_circle_members c.id).isOk = false) →
      ∃ e, statsLoop api cs = .error e
  | [], hex => by
    obtain ⟨c, hc, _⟩ := hex
    cases hc
  | c :: rest, hex => by
    cases hm : api.get_circle_members c.id with
    | error e => exact ⟨e, by simp only [statsLoop, hm]⟩
    | ok ms =>
      have hex' : ∃ c' ∈ rest, (api.get_circle_members c'.id).isOk = false := by
        obtain ⟨c0, hc0, hc0err⟩ := hex
        rcases List.mem_cons.mp hc0 with rfl | hc0'
        · rw [hm] at hc0err
          simp [Except.isOk, Except.toBool] at hc0err
        · exact ⟨c0, hc0', hc0err⟩
      cases hst : circleStats c ms with
      | error e => exact ⟨e, by simp only [statsLoop, hm, hst]⟩
      | ok st =>
        obtain ⟨e, he⟩ := statsLoop_err api rest hex'
        exact ⟨e, by simp only [statsLoop, hm, hst, he]⟩

/-- A failing member fetch for any listed circle aborts the low-battery loop. -/
theorem lowBatLoop_err (api : Api) (t : Int) :
    ∀ cs : List CircleMeta,
      (∃ c ∈ cs, (api.get_circle_members c.id).isOk = false) →
      ∃ e, lowBatLoop api t cs = .error e
  | [], hex => by
    obtain ⟨c, hc, _⟩ := hex
    cases hc
  | c :: rest, hex => by
    cases hm : api.get_circle_members c.id with
    | error e => exact ⟨e, by simp only [lowBatLoop, hm]⟩
    | ok ms =>
      have hex' : ∃ c' ∈ rest, (api.get_circle_members c'.id).isOk = false := by
        obtain ⟨c0, hc0, hc0err⟩ := hex
        rcases List.mem_cons.mp hc0 with rfl | hc0'
        · rw [hm] at hc0err
          simp [Except.isOk, Except.toBool] at hc0err
        · exact ⟨c0, hc0', hc0err⟩
      cases hscan : lowBatScan c t ms with
      | error e => exact ⟨e, by simp only [lowBatLoop, hm, hscan]⟩
      | ok entries =>
        obtain ⟨e, he⟩ := lowBatLoop_err api t rest hex'
        exact ⟨e, by simp only [lowBatLoop, hm, hscan, he]⟩

/-- C5: for every aggregation operation (all members, active members,
flattened locations, driving members, search, statistics, low battery), an
upstream failure makes the whole operation fail with one aggregate
HTTPException and no partial result: a circle-listing failure produces the
route's 500 carrying the underlying message verbatim, and a failing member
fetch for any listed circle leaves the operation with a single
HTTPException outcome. -/
theorem aggregate_failure_propagation (api : Api) :
    (∀ m : String, api.get_circles = .error m →
      get_all_members api = .error (.http ("Failed to fetch members: " ++ m)) ∧
      get_active_members api = .error (.http ("Failed to fetch members: " ++ m)) ∧
      (∀ oa : Bool, get_current_locations oa api =
        .error (.http ("Failed to fetch locations: " ++ m))) ∧
      get_driving_members api = .error (.http ("Failed to fetch locations: " ++ m)) ∧
      (∀ nm : String, search_members api nm = .error (.http ("Search failed: " ++ m))) ∧
      get_statistics api = .error (.http ("Failed to calculate statistics: " ++ m)) ∧
      (∀ t : Int, get_low_battery_members api t =
        .error (.http ("Failed to check battery levels: " ++ m)))) ∧
    (∀ cs : List CircleMeta, api.get_circles = .ok cs →
      (∃ c ∈ cs, (api.get_circle_members c.id).isOk = false) →
      (∃ d, get_all_members api = .error (.http d)) ∧
      (∃ d, get_active_members api = .error (.http d)) ∧
      (∀ oa, ∃ d, get_current_locations oa api = .error (.http d)) ∧
      (∃ d, get_driving_members api = .error (.http d)) ∧
      (∀ nm, ∃ d, search_members api nm = .error (.http d)) ∧
      (∃ d, get_statistics api = .error (.http d)) ∧
      (∀ t, ∃ d, get_low_battery_members api t = .error (.http d))) := by
  constructor
  · intro m hc
    have hall : get_all_members api =
        .error (.http ("Failed to fetch members: " ++ m)) := by
      simp [get_all_members, hc, routeWrap]
    have hlocs : ∀ oa, get_current_locations oa api =
        .error (.http ("Failed to fetch locations: " ++ m)) := by
      intro oa
      simp [get_current_locations, hc, routeWrap]
    refine ⟨hall, ?_, hlocs, ?_, ?_, ?_, ?_⟩
    · simp [get_active_members, hall, reRaise]
    · simp [get_driving_members, hlocs true, reRaise]
    · intro nm
      simp [search_members, hc, routeWrap]
    · simp [get_statistics, hc, routeWrap]
    · intro t
      simp [get_low_battery_members, hc, routeWrap]
  · intro cs hok hex
    obtain ⟨ea, hea⟩ := allLoop_err api cs [] hex
    have hall : get_all_members api =
        .error (.http ("Failed to fetch members: " ++ ea)) := by
      simp [get_all_members, hok, hea, routeWrap]
    have hlocs : ∀ oa, ∃ d, get_current_locations oa api = .error (.http d) := by
      intro oa
      obtain ⟨e, he⟩ := locationsLoop_err api oa cs hex
      exact ⟨"Failed to fetch locations: " ++ e,
        by simp [get_current_locations, hok, he, routeWrap]⟩
    refine ⟨⟨"Failed to fetch members: " ++ ea, hall⟩,
      ⟨"Failed to fetch members: " ++ ea, by simp [get_active_members, hall, reRaise]⟩,
      hlocs, ?_, ?_, ?_, ?_⟩
    · obtain ⟨d, hd⟩ := hlocs true
      exact ⟨d, by simp [get_driving_members, hd, reRaise]⟩
    · intro nm
      obtain ⟨e, he⟩ := searchLoop_err api (nm.toLower) cs hex
      exact ⟨"Search failed: " ++ e, by simp [search_members, hok, he, routeWrap]⟩
    · obtain ⟨e, he⟩ := statsLoop_err api cs hex
      exact ⟨"Failed to calculate statistics: " ++ e,
        by simp [get_statistics, hok, he, routeWrap]⟩
    · intro t
      obtain ⟨e, he⟩ := lowBatLoop_err api t cs hex
      exact ⟨"Failed to check battery levels: " ++ e,
        by simp [get_low_battery_members, hok, he, routeWrap]⟩

/-- C5 witness: a failing circle listing 500s `get_all_members` with the
underlying message, and a failing member fetch 500s `get_statistics`. -/
theorem aggregate_failure_propagation_witness :
    get_all_members failCirclesApi =
      .error (.http ("Failed to fetch members: " ++ "boom")) ∧
    (∃ d, get_statistics failMembersApi = .error (.http d)) :=
  ⟨((aggregate_failure_propagation failCirclesApi).1 "boom" rfl).1,
   ((aggregate_failure_propagation failMembersApi).2 [{ id := "c1", name := "Fam" }]
      rfl ⟨{ id := "c1", name := "Fam" }, by simp, rfl⟩).2.2.2.2.2.1⟩
